import Mathlib

/-!
# boblight sound device (`src/device/devicesound.cpp`)

A shallow embedding of `CDeviceSound`: the realtime PWM encoder `FillOutput`,
the setup and teardown protocol (`SetupDevice`, `CloseDevice`) and the
watchdog `WriteOutput`.

Modelling conventions.

* `int` values (`m_pwmcount`, `m_pwmperiod`, `m_outputvalues[j]`, PortAudio
  status codes) are `Int`; `framecount` and the loop indices are `Nat`: the
  loops are taken in the range where the `int` counters do not overflow.
* The output buffer holds `int16_t` samples and `m_pwmphase` is a 16-bit
  amplitude: a store into either converts with `int16` (two's complement
  wrap-around).
* Floating-point values are the rationals they denote. An operation on
  `float`s or `double`s is the exact operation followed by rounding to the
  format (`toFloat`, `toDouble`: round to nearest, ties to even); overflow to
  infinity is not modelled, and the conversion to `int` in `Round<int>` is
  exact.
* The PortAudio library is an environment `PaEnv` of the results its calls
  return. The calls that change the subsystem are recorded, each with the
  device state at the moment of the call, and so are the log lines.
-/

namespace Boblight

/-! ## Helpers from `util/misc.h` -/

/-- Modelled from the spec: `Round<int>` is declared in `util/misc.h`, which is
not part of the sources at hand; the spec words it as `round`, taken here as
rounding to the nearest integer with halves away from zero. -/
def Round (x : ℚ) : Int :=
  if 0 ≤ x then ⌊x + 1 / 2⌋ else ⌈x - 1 / 2⌉

/-- Modelled from the spec: `Clamp` is declared in `util/misc.h`, which is not
part of the sources at hand; the spec words it as
`clamp(value, 0, pwmPeriod)`, the value limited to `[lo, hi]`. -/
def Clamp (value lo hi : Int) : Int :=
  if value < lo then lo else if hi < value then hi else value

/-- Conversion of an `int` to `int16_t` (two's complement wrap-around). -/
def int16 (x : Int) : Int :=
  (x + 32768) % 65536 - 32768

/-! ## Floating-point arithmetic -/

/-- Rounding to the nearest integer, a tie going to the even one. -/
def roundHalfEven (x : ℚ) : Int :=
  if x - ⌊x⌋ < 1 / 2 then ⌊x⌋
  else if 1 / 2 < x - ⌊x⌋ then ⌊x⌋ + 1
  else if ⌊x⌋ % 2 = 0 then ⌊x⌋ else ⌊x⌋ + 1

/-- Rounding of an exact result to the binary floating-point format with `p`
significand bits and least normal exponent `emin` (round to nearest, ties to
even, with gradual underflow): the result is a multiple of the spacing
`2 ^ (e - (p - 1))` of the binade `2 ^ e ≤ |x| < 2 ^ (e + 1)`. Results beyond
the largest finite number of the format are not modelled. -/
def roundBinary (p : Nat) (emin : Int) (x : ℚ) : ℚ :=
  if x = 0 then 0
  else (roundHalfEven (x / 2 ^ (max (Int.log 2 |x|) emin - ((p : Int) - 1))) : ℚ)
    * 2 ^ (max (Int.log 2 |x|) emin - ((p : Int) - 1))

/-- Rounding to a `float` (single precision). -/
def toFloat (x : ℚ) : ℚ :=
  roundBinary 24 (-126) x

/-- Rounding to a `double` (double precision). -/
def toDouble (x : ℚ) : ℚ :=
  roundBinary 53 (-1022) x

/-! ## Device state -/

/-- Modelled from the spec: the class declaration (`devicesound.h`, and
`device.h` for the base `CDevice`) is not part of the sources at hand. The
fields are those the member functions read or write; `channels` is
`m_channels.size()`. The lifecycle flags, the liveness flag and the stop
request are booleans; `m_pwmperiod` and `m_pwmcount` are `int`; `m_pwmphase`
is the signed 16-bit peak amplitude (it is set to `0x7FFF` and stored into
`int16_t` samples). -/
structure CDeviceSound where
  m_output : String
  channels : Nat
  m_rate : Int
  m_period : Int
  m_latency : Int
  m_initialized : Bool
  m_opened : Bool
  m_started : Bool
  m_callbacksignal : Bool
  m_stop : Bool
  m_pwmphase : Int
  m_pwmperiod : Int
  m_pwmcount : Int
  m_outputvalues : List Int
deriving DecidableEq, Repr

/-! ## `FillOutput` -/

/-- The first loop of `FillOutput`: for each channel the rounded and clamped
duty count `Clamp(Round<int>(value * m_pwmperiod), 0, m_pwmperiod)`. The
product is `float * int`: the intensity is a `float`, the period is converted
to `float` and the product is rounded to `float`. -/
def outputValues (pwmperiod : Int) (values : List ℚ) : List Int :=
  values.map (fun v =>
    Clamp (Round (toFloat (toFloat v * toFloat (pwmperiod : ℚ)))) 0 pwmperiod)

/-- The inner loop over the channels `j` of one frame: `*out = m_pwmphase`
when `m_pwmcount < m_outputvalues[j]`, then `out++`. `pos` is the offset of
the pointer `out` in the buffer. -/
def channelLoop (pwmcount pwmphase : Int) : List Int → List Int → Nat → List Int × Nat
  | [], buf, pos => (buf, pos)
  | o :: rest, buf, pos =>
    channelLoop pwmcount pwmphase rest
      (if pwmcount < o then buf.set pos (int16 pwmphase) else buf) (pos + 1)

/-- The running state of the frame loop. -/
structure PwmLoop where
  pwmcount : Int
  pwmphase : Int
  buf : List Int
  pos : Nat
deriving DecidableEq, Repr

/-- The outer loop over `framecount` frames: the channel loop, then
`m_pwmcount++` and, when it reaches `m_pwmperiod`, the reset to `0` with
`m_pwmphase *= -1`. -/
def frameLoop (pwmperiod : Int) (ov : List Int) : Nat → PwmLoop → PwmLoop
  | 0, st => st
  | n + 1, st =>
    let r := channelLoop st.pwmcount st.pwmphase ov st.buf st.pos
    let count1 := st.pwmcount + 1
    if count1 = pwmperiod then
      frameLoop pwmperiod ov n ⟨0, int16 (st.pwmphase * -1), r.1, r.2⟩
    else
      frameLoop pwmperiod ov n ⟨count1, st.pwmphase, r.1, r.2⟩

/-- The callback body `FillOutput(out, framecount)`. `values` is the vector
`m_channels` as the first loop reads it, one intensity
`m_channels[i].GetValue(now)` per channel after `FillChannels`, so that
`m_channels.size()` is `values.length`; an intensity is read as the `float`
nearest to it. The buffer `out` has
`framecount * m_channels.size()` samples and is zeroed by the `memset`.
Returns the device state afterwards and the buffer contents. -/
def FillOutput (d : CDeviceSound) (values : List ℚ) (framecount : Nat) :
    CDeviceSound × List Int :=
  let ov := outputValues d.m_pwmperiod values
  let zeroed := List.replicate (framecount * values.length) (0 : Int)
  let r := frameLoop d.m_pwmperiod ov framecount ⟨d.m_pwmcount, d.m_pwmphase, zeroed, 0⟩
  ({ d with m_outputvalues := ov, m_pwmcount := r.pwmcount, m_pwmphase := r.pwmphase }, r.buf)

/-- One sign inversion `m_pwmphase *= -1` of the 16-bit amplitude. -/
def flipPhase (s : Int) : Int :=
  int16 (s * -1)

/-- A device whose amplitude is the one 16-bit value with no 16-bit negation. -/
def minPhaseDevice : CDeviceSound :=
  { m_output := "snd", channels := 1, m_rate := 48000, m_period := 64, m_latency := 10,
    m_initialized := true, m_opened := true, m_started := true,
    m_callbacksignal := false, m_stop := false,
    m_pwmphase := -32768, m_pwmperiod := 1, m_pwmcount := 0, m_outputvalues := [0] }

/-- The scenario of the spec: 48 kHz, carrier period 512, amplitude 32767. -/
def scenarioDevice : CDeviceSound :=
  { m_output := "snd", channels := 3, m_rate := 48000, m_period := 512, m_latency := 10,
    m_initialized := true, m_opened := true, m_started := true,
    m_callbacksignal := false, m_stop := false,
    m_pwmphase := 32767, m_pwmperiod := 512, m_pwmcount := 0, m_outputvalues := [0, 0, 0] }

/-- The scenario device with the carrier period `470`. -/
def roundingDevice : CDeviceSound :=
  { scenarioDevice with m_pwmperiod := 470 }

/-- The scenario device with the carrier period `2 ^ 24 + 1`. -/
def largePeriodDevice : CDeviceSound :=
  { scenarioDevice with m_pwmperiod := 16777217 }

/-- The carrier as a function of the running sample index `t` (counted from
the last moment `m_pwmcount` was `0` with amplitude `s`), for a channel of duty
count `o`: `s * (-1) ^ (t / P)` during the first `o` samples of each period. -/
def pwmWave (P : Nat) (o s : Int) (t : Nat) : Int :=
  if ((t % P : Nat) : Int) < o then s * (-1) ^ (t / P) else 0

/-! ## The PortAudio environment -/

/-- The status code `paNoError` of `portaudio.h`. -/
def paNoError : Int := 0

/-- The status code `paFormatIsSupported` of `portaudio.h`. -/
def paFormatIsSupported : Int := 0

/-- The sample format `paInt16` of `portaudio.h`. -/
def paInt16 : Nat := 8

/-- The fields of PortAudio's `PaDeviceInfo` that `SetupDevice` reads. -/
structure PaDeviceInfo where
  name : String
  maxOutputChannels : Int
  hostApi : Int
deriving DecidableEq, Repr

/-- PortAudio's `PaStreamParameters` as `SetupDevice` fills it
(`suggestedLatency` is `m_latency / 1000.0`). -/
structure PaStreamParameters where
  device : Int
  channelCount : Nat
  sampleFormat : Nat
  suggestedLatency : ℚ
deriving DecidableEq, Repr

/-- What the PortAudio library answers during one run of a member function:
the status code of each call and the enumeration of devices. `Init` and
`DeInit` are the results of `g_portaudioinit.Init()` and `.DeInit()`, which
forward `Pa_Initialize()` and `Pa_Terminate()` under the mutex. -/
structure PaEnv where
  Init : Int
  Pa_GetDeviceCount : Int
  Pa_GetDeviceInfo : Nat → PaDeviceInfo
  Pa_IsFormatSupported : PaStreamParameters → Int → Int
  Pa_OpenStream : Int
  Pa_StartStream : Int
  Pa_AbortStream : Int
  Pa_CloseStream : Int
  DeInit : Int

/-- The calls that change the state of the audio subsystem (the queries
`Pa_GetDeviceCount`, `Pa_GetDeviceInfo`, `Pa_GetHostApiInfo`,
`Pa_IsFormatSupported` and `Pa_GetErrorText` only read the environment). -/
inductive PaCall where
  | init
  | openStream (params : PaStreamParameters) (rate period : Int)
  | startStream
  | abortStream
  | closeStream
  | deinit
deriving DecidableEq, Repr

/-- Whether a call is `Pa_OpenStream`. -/
def PaCall.isOpenStream : PaCall → Bool
  | .openStream _ _ _ => true
  | _ => false

/-- The lines written with `log`. -/
inductive LogMsg where
  | error (code : Int)
  | noDevices
  | foundDevices (nrdevices : Int)
  | deviceLine (n : Nat) (channels : Int) (hostApi : Int) (name : String)
  | notFound
  | notEnoughChannels
  | usingDevice (devicenr : Int)
  | formatNotSupported (code : Int)
  | notResponding
deriving DecidableEq, Repr

/-- The result of a member function: the device afterwards, the value
returned, the subsystem calls issued, each with the device state at the moment
of the call (from `startStream` on the realtime callback may run, on the
state the device has then), and the log. -/
structure Outcome where
  dev : CDeviceSound
  ret : Bool
  calls : List (PaCall × CDeviceSound)
  logs : List LogMsg

/-- The constructor: the three lifecycle flags and the callback signal are
cleared; no other field is written (`d` is the object's memory before). -/
def construct (d : CDeviceSound) : CDeviceSound :=
  { d with m_opened := false, m_initialized := false, m_started := false,
           m_callbacksignal := false }

/-! ## `SetupDevice` -/

/-- The logging loop over the devices `i, i + 1, ..`: a line for each device
with `maxOutputChannels` non-zero. -/
def deviceLines (env : PaEnv) : Nat → Nat → List LogMsg
  | 0, _ => []
  | n + 1, i =>
    let deviceinfo := env.Pa_GetDeviceInfo i
    (if deviceinfo.maxOutputChannels ≠ 0
      then [LogMsg.deviceLine i deviceinfo.maxOutputChannels deviceinfo.hostApi deviceinfo.name]
      else []) ++ deviceLines env n (i + 1)

/-- The search loop `for (i ..; i < nrdevices; i++)` with `n` iterations left:
`deviceinfo = Pa_GetDeviceInfo(i)`, and on a name equal to `m_output`
`devicenr = i; break`. Returns `devicenr` (`-1` when the loop runs out) and
the cursor `deviceinfo` as the loop leaves it. -/
def searchLoop (env : PaEnv) (output : String) : Nat → Nat → PaDeviceInfo → Int × PaDeviceInfo
  | 0, _, deviceinfo => (-1, deviceinfo)
  | n + 1, i, _ =>
    let deviceinfo := env.Pa_GetDeviceInfo i
    if output = deviceinfo.name then ((i : Int), deviceinfo)
    else searchLoop env output n (i + 1) deviceinfo

/-- The conversion of an `int` operand to `size_t` (64 bit) that the
comparison `deviceinfo->maxOutputChannels < m_channels.size()` applies. -/
def toSizeT (x : Int) : Nat :=
  (x % 18446744073709551616).toNat

/-- The vector operation `std::vector<int>::resize(n)`: truncated, or padded with `0`. -/
def resize (v : List Int) (n : Nat) : List Int :=
  v.take n ++ List.replicate (n - v.length) 0

/-- The member function `SetupDevice`. The two quotients `m_latency / 1000.0`
and `(double)m_rate / 93.75` are divisions of `double`s. -/
def SetupDevice (env : PaEnv) (d : CDeviceSound) : Outcome :=
  -- init portaudio
  let err := env.Init
  let c1 := [(PaCall.init, d)]
  if err ≠ paNoError then ⟨d, false, c1, [.error err]⟩
  else
    let d1 := { d with m_initialized := true }
    -- get nr of devices
    let nrdevices := env.Pa_GetDeviceCount
    if nrdevices < 0 then ⟨d1, false, c1, [.error nrdevices]⟩
    else if nrdevices = 0 then ⟨d1, false, c1, [.noDevices]⟩
    else
      -- print info from portaudio to the log
      let l1 := LogMsg.foundDevices nrdevices :: deviceLines env nrdevices.toNat 0
      -- get a device which name matches m_output
      let found := searchLoop env d.m_output nrdevices.toNat 0
        (env.Pa_GetDeviceInfo (nrdevices.toNat - 1))
      let devicenr := found.1
      let deviceinfo := found.2
      if devicenr = -1 then ⟨d1, false, c1, l1 ++ [.notFound]⟩
      else if toSizeT deviceinfo.maxOutputChannels < d.channels then
        ⟨d1, false, c1, l1 ++ [.notEnoughChannels]⟩
      else
        let l2 := l1 ++ [.usingDevice devicenr]
        -- set up portaudio the way we want it
        let outputparameters : PaStreamParameters :=
          { channelCount := d.channels, device := devicenr, sampleFormat := paInt16,
            suggestedLatency := toDouble ((d.m_latency : ℚ) / 1000) }
        let formatsupported := env.Pa_IsFormatSupported outputparameters d.m_rate
        if formatsupported ≠ paFormatIsSupported then
          ⟨d1, false, c1, l2 ++ [.formatNotSupported formatsupported]⟩
        else
          let err := env.Pa_OpenStream
          let c2 := c1 ++ [(PaCall.openStream outputparameters d.m_rate d.m_period, d1)]
          if err ≠ paNoError then ⟨d1, false, c2, l2 ++ [.error err]⟩
          else
            let d2 := { d1 with m_opened := true }
            let d3 := { d2 with m_outputvalues := resize d2.m_outputvalues d.channels }
            let err := env.Pa_StartStream
            let c3 := c2 ++ [(PaCall.startStream, d3)]
            if err ≠ paNoError then ⟨d3, false, c3, l2 ++ [.error err]⟩
            else
              let d4 := { d3 with m_started := true }
              let d5 := { d4 with
                m_pwmphase := 32767,
                m_pwmperiod := Round (toDouble ((d.m_rate : ℚ) / (9375 / 100))),
                m_pwmcount := 0 }
              ⟨d5, true, c3, l2⟩

/-! ## `CloseDevice` -/

/-- The device, the calls and the log while `CloseDevice` runs. -/
structure Closing where
  dev : CDeviceSound
  calls : List (PaCall × CDeviceSound)
  logs : List LogMsg

/-- First stage of `CloseDevice`: `if (m_started)`. -/
def closeStarted (env : PaEnv) (r : Closing) : Closing :=
  if r.dev.m_started then
    let err := env.Pa_AbortStream
    { dev := { r.dev with m_started := false },
      calls := r.calls ++ [(PaCall.abortStream, r.dev)],
      logs := r.logs ++ (if err ≠ paNoError then [LogMsg.error err] else []) }
  else r

/-- Second stage of `CloseDevice`: `if (m_opened)`. -/
def closeOpened (env : PaEnv) (r : Closing) : Closing :=
  if r.dev.m_opened then
    let err := env.Pa_CloseStream
    { dev := { r.dev with m_opened := false },
      calls := r.calls ++ [(PaCall.closeStream, r.dev)],
      logs := r.logs ++ (if err ≠ paNoError then [LogMsg.error err] else []) }
  else r

/-- Third stage of `CloseDevice`: `if (m_initialized)`. -/
def closeInitialized (env : PaEnv) (r : Closing) : Closing :=
  if r.dev.m_initialized then
    let err := env.DeInit
    { dev := { r.dev with m_initialized := false },
      calls := r.calls ++ [(PaCall.deinit, r.dev)],
      logs := r.logs ++ (if err ≠ paNoError then [LogMsg.error err] else []) }
  else r

/-- The member function `CloseDevice`. -/
def CloseDevice (env : PaEnv) (d : CDeviceSound) : Closing :=
  closeInitialized env (closeOpened env (closeStarted env ⟨d, [], []⟩))

/-! ## `WriteOutput` -/

/-- What `WriteOutput` reads of the two flags written by other threads:
`m_stop` and `m_callbacksignal` after the first sleep and after the second. -/
structure Observed where
  stop1 : Bool
  live1 : Bool
  stop2 : Bool
  live2 : Bool
deriving DecidableEq, Repr

/-- The steps of `WriteOutput` that act on the outside. -/
inductive WatchStep where
  | resetSignal
  | usleep (microseconds : Nat)
  | log (msg : LogMsg)
deriving DecidableEq, Repr

/-- The member function `WriteOutput`: the value returned and the steps taken. -/
def WriteOutput (o : Observed) : Bool × List WatchStep :=
  -- reset the callback signal, give the callback one second to set the signal
  let s1 := [WatchStep.resetSignal, WatchStep.usleep 1000000]
  if o.stop1 then (true, s1)
  else if !o.live1 then
    -- if it didn't set it, give it one more second
    let s2 := s1 ++ [WatchStep.usleep 1000000]
    if o.stop2 then (true, s2)
    else if !o.live2 then (false, s2 ++ [WatchStep.log LogMsg.notResponding])
    else (true, s2)
  else (true, s1)

/-! ## Sequences of lifecycle calls -/

/-- One lifecycle call with the answers of the audio subsystem during it. -/
inductive LifecycleCall where
  | setup (env : PaEnv)
  | close (env : PaEnv)

/-- The device after one lifecycle call. -/
def lifecycleStep (d : CDeviceSound) : LifecycleCall → CDeviceSound
  | .setup env => (SetupDevice env d).dev
  | .close env => (CloseDevice env d).dev

/-- The device after a sequence of lifecycle calls. -/
def lifecycleRun (d : CDeviceSound) (ops : List LifecycleCall) : CDeviceSound :=
  ops.foldl lifecycleStep d

/-! ## Concrete inputs -/

/-- A PortAudio answering every call with success, with one device `snd` of
two output channels. -/
def workingEnv : PaEnv :=
  { Init := 0, Pa_GetDeviceCount := 1,
    Pa_GetDeviceInfo := fun _ => { name := "snd", maxOutputChannels := 2, hostApi := 0 },
    Pa_IsFormatSupported := fun _ _ => 0,
    Pa_OpenStream := 0, Pa_StartStream := 0, Pa_AbortStream := 0, Pa_CloseStream := 0,
    DeInit := 0 }

/-- The same PortAudio, its device reporting `maxOutputChannels = -1`. -/
def negativeCapacityEnv : PaEnv :=
  { workingEnv with
    Pa_GetDeviceInfo := fun _ => { name := "snd", maxOutputChannels := -1, hostApi := 0 } }

/-- The same PortAudio, its device having a single output channel. -/
def monoEnv : PaEnv :=
  { workingEnv with
    Pa_GetDeviceInfo := fun _ => { name := "snd", maxOutputChannels := 1, hostApi := 0 } }

/-- A freshly constructed device configured for output `snd`, two channels,
48 kHz; the carrier fields hold what the memory held before (here `1234`,
`-5`, `7`), since the constructor does not write them. -/
def freshDevice : CDeviceSound :=
  construct
    { m_output := "snd", channels := 2, m_rate := 48000, m_period := 64, m_latency := 10,
      m_initialized := true, m_opened := false, m_started := true,
      m_callbacksignal := true, m_stop := false,
      m_pwmphase := 1234, m_pwmperiod := -5, m_pwmcount := 7, m_outputvalues := [] }

/-- The fresh device with a single channel. -/
def freshMonoDevice : CDeviceSound :=
  { freshDevice with channels := 1 }

/-! ## Floating-point rounding -/

theorem roundHalfEven_intCast (n : Int) : roundHalfEven (n : ℚ) = n := by
  unfold roundHalfEven
  simp

theorem roundHalfEven_nonneg (x : ℚ) (h : 0 ≤ x) : 0 ≤ roundHalfEven x := by
  have hf : 0 ≤ ⌊x⌋ := Int.floor_nonneg.mpr h
  unfold roundHalfEven
  split_ifs <;> omega

theorem roundHalfEven_le (x : ℚ) (n : Int) (h : x ≤ (n : ℚ)) : roundHalfEven x ≤ n := by
  have hf : ⌊x⌋ ≤ n := by
    have := Int.floor_le x
    exact_mod_cast (le_trans this h)
  have hstrict : 0 < x - ⌊x⌋ → ⌊x⌋ + 1 ≤ n := by
    intro hpos
    have hne : x ≠ (n : ℚ) := by
      intro e
      rw [e, Int.floor_intCast] at hpos
      simp at hpos
    have hlt : x < (n : ℚ) := lt_of_le_of_ne h hne
    have := Int.floor_lt.mpr hlt
    omega
  unfold roundHalfEven
  split_ifs with h1 h2 h3
  · exact hf
  · exact hstrict (by linarith)
  · exact hf
  · exact hstrict (by linarith)

theorem roundBinary_nonneg (p : Nat) (emin : Int) (x : ℚ) (h : 0 ≤ x) :
    0 ≤ roundBinary p emin x := by
  unfold roundBinary
  split_ifs
  · exact le_refl _
  · apply mul_nonneg
    · exact_mod_cast roundHalfEven_nonneg _ (div_nonneg h (by positivity))
    · positivity

theorem roundBinary_of_binade (p : Nat) (emin : Int) (x : ℚ) (e : Int)
    (h1 : (2 : ℚ) ^ e ≤ |x|) (h2 : |x| < (2 : ℚ) ^ (e + 1)) (he : emin ≤ e) :
    roundBinary p emin x =
      (roundHalfEven (x / 2 ^ (e - ((p : Int) - 1))) : ℚ) * 2 ^ (e - ((p : Int) - 1)) := by
  have hpos : 0 < |x| := lt_of_lt_of_le (by positivity) h1
  have hx : x ≠ 0 := abs_pos.mp hpos
  have hlog : Int.log 2 |x| = e := by
    apply le_antisymm
    · have := (Int.lt_zpow_iff_log_lt (b := 2) (by norm_num) hpos).mp (by exact_mod_cast h2)
      omega
    · exact (Int.zpow_le_iff_le_log (b := 2) (by norm_num) hpos).mp (by exact_mod_cast h1)
  unfold roundBinary
  rw [if_neg hx, hlog, max_eq_left he]

/-- A non-zero number that is an integer multiple of the spacing of its own
binade is left unchanged. -/
theorem roundBinary_of_multiple (p : Nat) (emin : Int) (x : ℚ) (m : Int)
    (h : x / 2 ^ (max (Int.log 2 |x|) emin - ((p : Int) - 1)) = (m : ℚ)) :
    roundBinary p emin x = x := by
  unfold roundBinary
  split_ifs with h0
  · exact h0.symm
  · rw [h, roundHalfEven_intCast, ← h]
    have hq : (2 : ℚ) ^ (max (Int.log 2 |x|) emin - ((p : Int) - 1)) ≠ 0 := by positivity
    field_simp

/-- Every natural number up to `2 ^ p` is a floating-point number of `p`
significand bits. -/
theorem roundBinary_natCast (p : Nat) (emin : Int) (hp : 1 ≤ p) (hemin : emin ≤ 0) (n : Nat)
    (hn : n ≤ 2 ^ p) : roundBinary p emin (n : ℚ) = n := by
  rcases Nat.eq_zero_or_pos n with h0 | hpos
  · subst h0
    simp [roundBinary]
  have hq : (0 : ℚ) < (n : ℚ) := by exact_mod_cast hpos
  have habs : |(n : ℚ)| = n := abs_of_pos hq
  have hlog : Int.log 2 (n : ℚ) = (Nat.log 2 n : Int) := Int.log_natCast 2 n
  have hlogle : Nat.log 2 n ≤ p := by
    calc Nat.log 2 n ≤ Nat.log 2 (2 ^ p) := Nat.log_mono_right hn
      _ = p := Nat.log_pow (by norm_num) p
  have hmax : max (Int.log 2 |(n : ℚ)|) emin = (Nat.log 2 n : Int) := by
    rw [habs, hlog]
    apply max_eq_left
    omega
  rcases Nat.lt_or_ge (Nat.log 2 n) p with hlt | hge
  · -- the spacing is `1 / 2 ^ k`
    obtain ⟨k, hk⟩ : ∃ k : Nat, (Nat.log 2 n : Int) - ((p : Int) - 1) = - (k : Int) :=
      ⟨p - 1 - Nat.log 2 n, by omega⟩
    apply roundBinary_of_multiple p emin (n : ℚ) ((n : Int) * 2 ^ k)
    rw [hmax, hk, zpow_neg, zpow_natCast]
    push_cast
    field_simp
  · -- `n = 2 ^ p`, the spacing is `2`
    have hlp : Nat.log 2 n = p := le_antisymm hlogle hge
    have hpow : 2 ^ p ≤ n := by
      rw [← hlp]
      exact Nat.pow_log_le_self 2 (by omega)
    have hn2 : n = 2 ^ p := le_antisymm hn hpow
    obtain ⟨r, hr⟩ : ∃ r : Nat, p = r + 1 := ⟨p - 1, by omega⟩
    apply roundBinary_of_multiple p emin (n : ℚ) ((2 : Int) ^ r)
    rw [hmax, hlp]
    have he : ((p : Int) - ((p : Int) - 1)) = 1 := by omega
    rw [he, zpow_one, hn2, hr, pow_succ]
    push_cast
    field_simp

/-- Rounding is below every floating-point number that the argument is below. -/
theorem roundBinary_le_of_fixed (p : Nat) (emin : Int) (x y : ℚ) (hx : 0 < x) (hxy : x ≤ y)
    (hy : roundBinary p emin y = y) : roundBinary p emin x ≤ y := by
  have hy0 : 0 < y := lt_of_lt_of_le hx hxy
  have hxne : x ≠ 0 := ne_of_gt hx
  have hyne : y ≠ 0 := ne_of_gt hy0
  have hle : max (Int.log 2 |x|) emin ≤ max (Int.log 2 |y|) emin := by
    apply max_le_max _ (le_refl _)
    rw [abs_of_pos hx, abs_of_pos hy0]
    exact Int.log_mono_right hx hxy
  obtain ⟨k, hk⟩ : ∃ k : Nat, max (Int.log 2 |y|) emin - ((p : Int) - 1)
      = (max (Int.log 2 |x|) emin - ((p : Int) - 1)) + (k : Int) :=
    ⟨(max (Int.log 2 |y|) emin - max (Int.log 2 |x|) emin).toNat, by omega⟩
  have hqx : (0 : ℚ) < 2 ^ (max (Int.log 2 |x|) emin - ((p : Int) - 1)) := by positivity
  -- `y` is an integer multiple of the spacing at `x`
  have hymul : y = ((roundHalfEven (y / 2 ^ (max (Int.log 2 |y|) emin - ((p : Int) - 1)))
      * 2 ^ k : Int) : ℚ) * 2 ^ (max (Int.log 2 |x|) emin - ((p : Int) - 1)) := by
    have h1 := hy
    unfold roundBinary at h1
    rw [if_neg hyne] at h1
    conv_lhs => rw [← h1]
    rw [hk, zpow_add₀ (by norm_num : (2 : ℚ) ≠ 0), zpow_natCast]
    push_cast
    ring
  have hdiv : x / 2 ^ (max (Int.log 2 |x|) emin - ((p : Int) - 1))
      ≤ ((roundHalfEven (y / 2 ^ (max (Int.log 2 |y|) emin - ((p : Int) - 1)))
        * 2 ^ k : Int) : ℚ) := by
    rw [div_le_iff₀ hqx, ← hymul]
    exact hxy
  have hr := roundHalfEven_le _ _ hdiv
  unfold roundBinary
  rw [if_neg hxne]
  calc (roundHalfEven (x / 2 ^ (max (Int.log 2 |x|) emin - ((p : Int) - 1))) : ℚ)
        * 2 ^ (max (Int.log 2 |x|) emin - ((p : Int) - 1))
      ≤ ((roundHalfEven (y / 2 ^ (max (Int.log 2 |y|) emin - ((p : Int) - 1)))
        * 2 ^ k : Int) : ℚ) * 2 ^ (max (Int.log 2 |x|) emin - ((p : Int) - 1)) := by
        apply mul_le_mul_of_nonneg_right _ (le_of_lt hqx)
        exact_mod_cast hr
    _ = y := hymul.symm

theorem toFloat_natCast (n : Nat) (hn : n ≤ 16777216) : toFloat (n : ℚ) = n :=
  roundBinary_natCast 24 (-126) (by decide) (by decide) n hn

theorem toDouble_natCast (n : Nat) (hn : n ≤ 9007199254740992) : toDouble (n : ℚ) = n :=
  roundBinary_natCast 53 (-1022) (by decide) (by decide) n hn

theorem toFloat_zero : toFloat 0 = 0 := by
  simp [toFloat, roundBinary]

theorem toFloat_half : toFloat (1 / 2) = 1 / 2 := by
  unfold toFloat
  rw [roundBinary_of_binade 24 (-126) _ (-1) (by norm_num [abs_of_pos])
    (by norm_num [abs_of_pos]) (by decide)]
  norm_num [roundHalfEven]

/-- The number `0x1.a2509cp-9` is a `float`. -/
theorem toFloat_intensity :
    toFloat (13707342 / 4294967296) = 13707342 / 4294967296 := by
  unfold toFloat
  rw [roundBinary_of_binade 24 (-126) _ (-9) (by norm_num [abs_of_pos])
    (by norm_num [abs_of_pos]) (by decide)]
  norm_num [roundHalfEven]

theorem toFloat_one : toFloat 1 = 1 := by
  simpa using toFloat_natCast 1 (by decide)

theorem toFloat_256 : toFloat 256 = 256 := by
  simpa using toFloat_natCast 256 (by decide)

theorem toFloat_470 : toFloat 470 = 470 := by
  simpa using toFloat_natCast 470 (by decide)

theorem toFloat_512 : toFloat 512 = 512 := by
  simpa using toFloat_natCast 512 (by decide)

theorem toFloat_16777216 : toFloat 16777216 = 16777216 := by
  simpa using toFloat_natCast 16777216 (by decide)

theorem toDouble_512 : toDouble 512 = 512 := by
  simpa using toDouble_natCast 512 (by decide)

/-- The product of the float `0x1.a2509cp-9` and `470` is `1.49999997..`; as a
`float` it is `1.5`. -/
theorem toFloat_near_three_halves :
    toFloat (13707342 / 4294967296 * 470) = 3 / 2 := by
  unfold toFloat
  rw [roundBinary_of_binade 24 (-126) _ 0 (by norm_num [abs_of_pos]) (by norm_num [abs_of_pos])
    (by decide)]
  norm_num [roundHalfEven]

/-- The integer `2 ^ 24 + 1` is not a `float`: it converts to `2 ^ 24`. -/
theorem toFloat_16777217 : toFloat 16777217 = 16777216 := by
  unfold toFloat
  rw [roundBinary_of_binade 24 (-126) _ 24 (by norm_num [abs_of_pos]) (by norm_num [abs_of_pos])
    (by decide)]
  norm_num [roundHalfEven]

/-! ## The frame loop, sample by sample -/

theorem channelLoop_pos (c p : Int) : ∀ (ov buf : List Int) (pos : Nat),
    (channelLoop c p ov buf pos).2 = pos + ov.length := by
  intro ov
  induction ov with
  | nil => intro buf pos; simp [channelLoop]
  | cons o rest ih =>
    intro buf pos
    simp only [channelLoop, ih, List.length_cons]
    omega

theorem channelLoop_length (c p : Int) : ∀ (ov buf : List Int) (pos : Nat),
    (channelLoop c p ov buf pos).1.length = buf.length := by
  intro ov
  induction ov with
  | nil => intro buf pos; simp [channelLoop]
  | cons o rest ih =>
    intro buf pos
    simp only [channelLoop, ih]
    split <;> simp

theorem channelLoop_getElem? (c p : Int) : ∀ (ov buf : List Int) (pos k : Nat),
    (channelLoop c p ov buf pos).1[k]? =
      if pos ≤ k ∧ k - pos < ov.length ∧ k < buf.length ∧ c < ov.getD (k - pos) 0
      then some (int16 p) else buf[k]? := by
  intro ov
  induction ov with
  | nil => intro buf pos k; simp [channelLoop]
  | cons o rest ih =>
    intro buf pos k
    simp only [channelLoop, ih]
    have hlen : (if c < o then buf.set pos (int16 p) else buf).length = buf.length := by
      split <;> simp
    rw [hlen]
    rcases Nat.lt_trichotomy k pos with hk | hk | hk
    · have h1 : ¬ (pos + 1 ≤ k) := by omega
      have h2 : ¬ (pos ≤ k) := by omega
      have h3 : (if c < o then buf.set pos (int16 p) else buf)[k]? = buf[k]? := by
        split
        · rw [List.getElem?_set_ne (by omega)]
        · rfl
      simp [h1, h2, h3]
    · subst hk
      have h1 : ¬ (k + 1 ≤ k) := by omega
      simp only [h1, false_and, if_false, le_refl, Nat.sub_self, List.length_cons,
        Nat.zero_lt_succ, true_and, List.getD_cons_zero]
      by_cases hco : c < o
      · by_cases hkb : k < buf.length
        · simp [hco, hkb]
        · have : buf.length ≤ k := by omega
          simp only [hco, hkb, if_true, and_true, if_false]
          rw [List.getElem?_eq_none (by simpa using this), List.getElem?_eq_none this]
      · simp [hco]
    · have h3 : (if c < o then buf.set pos (int16 p) else buf)[k]? = buf[k]? := by
        split
        · rw [List.getElem?_set_ne (by omega)]
        · rfl
      obtain ⟨m, rfl⟩ : ∃ m, k = pos + 1 + m := ⟨k - (pos + 1), by omega⟩
      have e1 : pos + 1 + m - (pos + 1) = m := by omega
      have e2 : pos + 1 + m - pos = m + 1 := by omega
      have e3 : pos + 1 ≤ pos + 1 + m := by omega
      have e4 : pos ≤ pos + 1 + m := by omega
      rw [h3, e1, e2]
      simp [e3, e4]

theorem wrap_mod_div (cn pn i : Nat) (h : cn + 1 = pn) :
    (cn + (i + 1)) % pn = i % pn ∧ (cn + (i + 1)) / pn = i / pn + 1 := by
  have hp : 0 < pn := by omega
  have e : cn + (i + 1) = pn + i := by omega
  rw [e]
  exact ⟨Nat.add_mod_left _ _, Nat.add_div_left _ hp⟩

/-- The frame loop started with `0 ≤ m_pwmcount < m_pwmperiod`: the carrier
state after `n` frames and every sample slot it has passed. -/
theorem frameLoop_spec (pn : Nat) (ov : List Int) : ∀ (n : Nat) (st : PwmLoop) (cn : Nat),
    st.pwmcount = (cn : Int) → cn < pn →
    (frameLoop pn ov n st).pwmcount = (((cn + n) % pn : Nat) : Int) ∧
    (frameLoop pn ov n st).pwmphase = flipPhase^[(cn + n) / pn] st.pwmphase ∧
    (frameLoop pn ov n st).pos = st.pos + n * ov.length ∧
    (frameLoop pn ov n st).buf.length = st.buf.length ∧
    (∀ k, k < st.pos → (frameLoop pn ov n st).buf[k]? = st.buf[k]?) ∧
    (∀ i j, j < ov.length →
      (frameLoop pn ov n st).buf[st.pos + i * ov.length + j]? =
        if i < n ∧ st.pos + i * ov.length + j < st.buf.length ∧
            (((cn + i) % pn : Nat) : Int) < ov.getD j 0
        then some (int16 (flipPhase^[(cn + i) / pn] st.pwmphase))
        else st.buf[st.pos + i * ov.length + j]?) := by
  intro n
  induction n with
  | zero =>
    intro st cn hc hlt
    simp [frameLoop, hc, Nat.mod_eq_of_lt hlt, Nat.div_eq_of_lt hlt]
  | succ n ih =>
    intro st cn hc hlt
    have hcl := channelLoop_length st.pwmcount st.pwmphase ov st.buf st.pos
    have hcp := channelLoop_pos st.pwmcount st.pwmphase ov st.buf st.pos
    have hcg := channelLoop_getElem? st.pwmcount st.pwmphase ov st.buf st.pos
    -- the slots of frame 0 and of the later frames, in the buffer after the channel loop
    have hrow : ∀ j, j < ov.length →
        (channelLoop st.pwmcount st.pwmphase ov st.buf st.pos).1[st.pos + j]? =
          if st.pos + j < st.buf.length ∧ (cn : Int) < ov.getD j 0
          then some (int16 st.pwmphase) else st.buf[st.pos + j]? := by
      intro j hj
      rw [hcg, hc]
      have e1 : st.pos + j - st.pos = j := by omega
      have e2 : st.pos ≤ st.pos + j := by omega
      simp [e1, e2, hj]
    have hlater : ∀ k, st.pos + ov.length ≤ k →
        (channelLoop st.pwmcount st.pwmphase ov st.buf st.pos).1[k]? = st.buf[k]? := by
      intro k hk
      rw [hcg]
      have e1 : ¬ (k - st.pos < ov.length) := by omega
      simp [e1]
    have hbefore : ∀ k, k < st.pos →
        (channelLoop st.pwmcount st.pwmphase ov st.buf st.pos).1[k]? = st.buf[k]? := by
      intro k hk
      rw [hcg]
      have e1 : ¬ (st.pos ≤ k) := by omega
      simp [e1]
    have hidx : ∀ i j, st.pos + (i + 1) * ov.length + j = st.pos + ov.length + i * ov.length + j := by
      intro i j
      rw [Nat.succ_mul]
      omega
    by_cases hw : cn + 1 = pn
    · -- the counter reaches the period: reset and sign inversion
      have hwi : st.pwmcount + 1 = (pn : Int) := by rw [hc]; exact_mod_cast hw
      have hpos : 0 < pn := by omega
      obtain ⟨i1, i2, i3, i4, i5, i6⟩ := ih
        ⟨0, int16 (st.pwmphase * -1), (channelLoop st.pwmcount st.pwmphase ov st.buf st.pos).1,
          (channelLoop st.pwmcount st.pwmphase ov st.buf st.pos).2⟩ 0 (by simp) hpos
      simp only [frameLoop, hwi, if_true, hcp]
      simp only [hcl, hcp, Nat.zero_add] at i1 i2 i3 i4 i5 i6
      obtain ⟨w1, w2⟩ := wrap_mod_div cn pn n hw
      refine ⟨?_, ?_, ?_, ?_, ?_, ?_⟩
      · rw [i1, w1]
      · rw [i2, w2, Function.iterate_succ_apply]; rfl
      · rw [i3, Nat.succ_mul]; omega
      · exact i4
      · intro k hk
        rw [i5 k (by omega), hbefore k hk]
      · intro i j hj
        cases i with
        | zero =>
          have h0 := i5 (st.pos + j) (by omega)
          simp only [Nat.zero_mul, Nat.add_zero, Nat.zero_lt_succ, true_and]
          rw [h0, hrow j hj, Nat.mod_eq_of_lt hlt, Nat.div_eq_of_lt hlt]
          rfl
        | succ i =>
          obtain ⟨v1, v2⟩ := wrap_mod_div cn pn i hw
          rw [hidx, i6 i j hj, hlater _ (by omega), v1, v2, Function.iterate_succ_apply]
          simp only [Nat.add_lt_add_iff_right]
          rfl
    · -- the counter stays below the period
      have hwi : ¬ (st.pwmcount + 1 = (pn : Int)) := by
        rw [hc]; intro h; exact hw (by exact_mod_cast h)
      obtain ⟨i1, i2, i3, i4, i5, i6⟩ := ih
        ⟨st.pwmcount + 1, st.pwmphase, (channelLoop st.pwmcount st.pwmphase ov st.buf st.pos).1,
          (channelLoop st.pwmcount st.pwmphase ov st.buf st.pos).2⟩ (cn + 1)
          (by simp [hc]) (by omega)
      simp only [frameLoop, hwi, if_false, hcp]
      simp only [hcl, hcp] at i1 i2 i3 i4 i5 i6
      have ea : ∀ m, cn + 1 + m = cn + (m + 1) := by intro m; omega
      refine ⟨?_, ?_, ?_, ?_, ?_, ?_⟩
      · rw [i1, ea]
      · rw [i2, ea]
      · rw [i3, Nat.succ_mul]; omega
      · exact i4
      · intro k hk
        rw [i5 k (by omega), hbefore k hk]
      · intro i j hj
        cases i with
        | zero =>
          have h0 := i5 (st.pos + j) (by omega)
          simp only [Nat.zero_mul, Nat.add_zero, Nat.zero_lt_succ, true_and]
          rw [h0, hrow j hj, Nat.mod_eq_of_lt hlt, Nat.div_eq_of_lt hlt]
          rfl
        | succ i =>
          rw [hidx, i6 i j hj, hlater _ (by omega), ea]
          simp only [Nat.add_lt_add_iff_right]

/-! ## `FillOutput`: carrier state and buffer -/

theorem int16_of_range (x : Int) (h1 : -32768 ≤ x) (h2 : x ≤ 32767) : int16 x = x := by
  unfold int16
  omega

theorem flipPhase_iterate (s : Int) (h1 : -32767 ≤ s) (h2 : s ≤ 32767) :
    ∀ k : Nat, flipPhase^[k] s = s * (-1) ^ k := by
  intro k
  induction k with
  | zero => simp
  | succ k ih =>
    rw [Function.iterate_succ_apply', ih, pow_succ]
    unfold flipPhase
    rw [int16_of_range]
    · ring
    · rcases neg_one_pow_eq_or ℤ k with h | h <;> rw [h] <;> omega
    · rcases neg_one_pow_eq_or ℤ k with h | h <;> rw [h] <;> omega

theorem outputValues_length (P : Int) (values : List ℚ) :
    (outputValues P values).length = values.length := by
  simp [outputValues]

theorem slot_lt (F C i j : Nat) (hi : i < F) (hj : j < C) : i * C + j < F * C := by
  have h1 : (i + 1) * C ≤ F * C := Nat.mul_le_mul_right C hi
  rw [Nat.succ_mul] at h1
  omega

/-- One call of `FillOutput` entered with `0 ≤ m_pwmcount < m_pwmperiod`: the
state it leaves and the sample in every slot `i * channels + j`. -/
theorem FillOutput_spec (d : CDeviceSound) (values : List ℚ) (F cn pn : Nat)
    (hc : d.m_pwmcount = (cn : Int)) (hp : d.m_pwmperiod = (pn : Int)) (hlt : cn < pn) :
    (FillOutput d values F).1.m_pwmcount = (((cn + F) % pn : Nat) : Int) ∧
    (FillOutput d values F).1.m_pwmphase = flipPhase^[(cn + F) / pn] d.m_pwmphase ∧
    (FillOutput d values F).1.m_pwmperiod = d.m_pwmperiod ∧
    (FillOutput d values F).1.m_outputvalues = outputValues d.m_pwmperiod values ∧
    (FillOutput d values F).2.length = F * values.length ∧
    (∀ i j, i < F → j < values.length →
      (FillOutput d values F).2[i * values.length + j]? =
        some (if (((cn + i) % pn : Nat) : Int) < (outputValues d.m_pwmperiod values).getD j 0
          then int16 (flipPhase^[(cn + i) / pn] d.m_pwmphase) else 0)) := by
  obtain ⟨h1, h2, _, h4, _, h6⟩ := frameLoop_spec pn (outputValues d.m_pwmperiod values) F
    ⟨d.m_pwmcount, d.m_pwmphase, List.replicate (F * values.length) (0 : Int), 0⟩ cn hc hlt
  simp only [outputValues_length, List.length_replicate, Nat.zero_add, hp] at h1 h2 h4 h6
  refine ⟨?_, ?_, rfl, rfl, ?_, ?_⟩
  · simp only [FillOutput, hp]; exact h1
  · simp only [FillOutput, hp]; exact h2
  · simp only [FillOutput, hp]; exact h4
  · intro i j hi hj
    have hlt2 := slot_lt F values.length i j hi hj
    have h := h6 i j hj
    simp only [FillOutput, hp]
    rw [h]
    simp only [hi, hlt2, true_and]
    split
    · rfl
    · rw [List.getElem?_replicate]
      simp [hlt2]

theorem carrier_nat (c P : Int) (h0 : 0 ≤ c) (h1 : c < P) :
    ∃ cn pn : Nat, c = (cn : Int) ∧ P = (pn : Int) ∧ cn < pn := by
  refine ⟨c.toNat, P.toNat, ?_, ?_, ?_⟩ <;> omega

theorem cast_mod_frame (cn pn i : Nat) :
    (((cn + i) % pn : Nat) : Int) = ((cn : Int) + (i : Int)) % (pn : Int) := by
  push_cast
  rfl

theorem cast_div_frame (cn pn i : Nat) :
    (((cn : Int) + (i : Int)) / (pn : Int)).toNat = (cn + i) / pn := by
  rw [← Nat.cast_add, ← Int.natCast_div, Int.toNat_natCast]

/-- With an amplitude in `[-32767, 32767]`: the sample of frame `i`, channel
`j`, in the terms of the entry state. -/
theorem FillOutput_sample (d : CDeviceSound) (values : List ℚ) (F : Nat)
    (hc0 : 0 ≤ d.m_pwmcount) (hc : d.m_pwmcount < d.m_pwmperiod)
    (hs1 : -32767 ≤ d.m_pwmphase) (hs2 : d.m_pwmphase ≤ 32767)
    (i j : Nat) (hi : i < F) (hj : j < values.length) :
    (FillOutput d values F).2[i * values.length + j]? =
      some (if (d.m_pwmcount + (i : Int)) % d.m_pwmperiod
            < (outputValues d.m_pwmperiod values).getD j 0
        then d.m_pwmphase * (-1) ^ ((d.m_pwmcount + (i : Int)) / d.m_pwmperiod).toNat
        else 0) := by
  obtain ⟨cn, pn, ec, ep, hlt⟩ := carrier_nat _ _ hc0 hc
  obtain ⟨_, _, _, _, _, h6⟩ := FillOutput_spec d values F cn pn ec ep hlt
  rw [h6 i j hi hj, flipPhase_iterate _ hs1 hs2, ec, ep, cast_mod_frame, cast_div_frame,
    int16_of_range]
  · rcases neg_one_pow_eq_or ℤ ((cn + i) / pn) with h | h <;> rw [h] <;> omega
  · rcases neg_one_pow_eq_or ℤ ((cn + i) / pn) with h | h <;> rw [h] <;> omega

theorem minPhaseDevice_buffer :
    (FillOutput minPhaseDevice [1] 2).2 = [-32768, -32768] := by
  norm_num [FillOutput, minPhaseDevice, outputValues, toFloat_one, Round, Clamp, frameLoop,
    channelLoop, int16, List.replicate]

theorem minPhaseDevice_values : outputValues 1 [1] = [1] := by
  norm_num [outputValues, toFloat_one, Round, Clamp]

theorem scenario_period :
    scenarioDevice.m_pwmperiod
      = Round (toDouble ((scenarioDevice.m_rate : ℚ) / (9375 / 100))) := by
  norm_num [scenarioDevice, toDouble_512, Round]

theorem scenario_values : outputValues 512 [0, 1 / 2, 1] = [0, 256, 512] := by
  unfold outputValues
  simp only [List.map_cons, List.map_nil, Int.cast_ofNat, toFloat_zero, toFloat_half,
    toFloat_one, toFloat_512]
  norm_num [toFloat_zero, toFloat_256, toFloat_512, Round, Clamp]

/-! ## Claims about `FillOutput` -/

/-- C2 (amended): for every period `P ≥ 1`, start state with
`0 ≤ pwmCount = c < P` and amplitude `s` in `[-32767, 32767]`, channel
intensities and frame count `F`, `FillOutput` produces a buffer of exactly
`F * C` samples in which the sample at index `i * C + j` equals
`s * (-1) ^ ((c + i) / P)` when `(c + i) % P < outputValue[j]` and `0`
otherwise; with `s = ±32767` every sample is `32767`, `-32767` or `0`. -/
theorem FillOutput_samples (d : CDeviceSound) (values : List ℚ) (F : Nat)
    (hP : 1 ≤ d.m_pwmperiod) (hc0 : 0 ≤ d.m_pwmcount) (hc : d.m_pwmcount < d.m_pwmperiod)
    (hs1 : -32767 ≤ d.m_pwmphase) (hs2 : d.m_pwmphase ≤ 32767) :
    (FillOutput d values F).2.length = F * values.length ∧
    (∀ i j, i < F → j < values.length →
      (FillOutput d values F).2[i * values.length + j]? =
        some (if (d.m_pwmcount + (i : Int)) % d.m_pwmperiod
              < (FillOutput d values F).1.m_outputvalues.getD j 0
          then d.m_pwmphase * (-1) ^ ((d.m_pwmcount + (i : Int)) / d.m_pwmperiod).toNat
          else 0)) ∧
    (d.m_pwmphase = 32767 ∨ d.m_pwmphase = -32767 →
      ∀ x ∈ (FillOutput d values F).2, x = 32767 ∨ x = -32767 ∨ x = 0) := by
  have _ := hP
  obtain ⟨cn, pn, ec, ep, hlt⟩ := carrier_nat _ _ hc0 hc
  obtain ⟨_, _, _, hov, hlen, _⟩ := FillOutput_spec d values F cn pn ec ep hlt
  have hsample := FillOutput_sample d values F hc0 hc hs1 hs2
  refine ⟨hlen, ?_, ?_⟩
  · intro i j hi hj
    rw [hov]
    exact hsample i j hi hj
  · intro hs x hx
    obtain ⟨k, hk⟩ := List.mem_iff_getElem?.mp hx
    have hklt : k < F * values.length := by
      rw [← hlen]
      by_contra hcon
      rw [List.getElem?_eq_none (by omega)] at hk
      exact absurd hk (by simp)
    have hC : 0 < values.length := by
      rcases Nat.eq_zero_or_pos values.length with h0 | h0
      · rw [h0] at hklt; omega
      · exact h0
    have hi : k / values.length < F := by
      apply Nat.div_lt_of_lt_mul
      rw [Nat.mul_comm]
      exact hklt
    have hj : k % values.length < values.length := Nat.mod_lt _ hC
    have hkd : k / values.length * values.length + k % values.length = k := by
      rw [Nat.mul_comm]
      exact Nat.div_add_mod k values.length
    have h := hsample (k / values.length) (k % values.length) hi hj
    rw [hkd, hk] at h
    have hx2 := Option.some.inj h
    rw [hx2]
    split
    · rcases neg_one_pow_eq_or ℤ
        ((d.m_pwmcount + ((k / values.length : Nat) : Int)) / d.m_pwmperiod).toNat with h1 | h1 <;>
        rw [h1] <;> omega
    · omega

/-- C2, the scenario of the claim: at 48 kHz (`P = 512`) with intensities
`[0, 1/2, 1]`, `c = 0` and `F = 512` the duty counts are `[0, 256, 512]`;
channel 1 is `0` at every frame, channel 2 is the amplitude at frames
`0..255` and `0` at frames `256..511`, channel 3 is the amplitude at every
frame. -/
theorem FillOutput_samples_witness :
    (1 ≤ scenarioDevice.m_pwmperiod ∧ 0 ≤ scenarioDevice.m_pwmcount ∧
      scenarioDevice.m_pwmcount < scenarioDevice.m_pwmperiod ∧
      -32767 ≤ scenarioDevice.m_pwmphase ∧ scenarioDevice.m_pwmphase ≤ 32767) ∧
    scenarioDevice.m_pwmperiod
      = Round (toDouble ((scenarioDevice.m_rate : ℚ) / (9375 / 100))) ∧
    (FillOutput scenarioDevice [0, 1 / 2, 1] 512).1.m_outputvalues = [0, 256, 512] ∧
    (FillOutput scenarioDevice [0, 1 / 2, 1] 512).2.length = 1536 ∧
    (∀ i, i < 512 →
      (FillOutput scenarioDevice [0, 1 / 2, 1] 512).2[i * 3 + 0]? = some 0 ∧
      (FillOutput scenarioDevice [0, 1 / 2, 1] 512).2[i * 3 + 1]? =
        some (if i < 256 then 32767 else 0) ∧
      (FillOutput scenarioDevice [0, 1 / 2, 1] 512).2[i * 3 + 2]? = some 32767) := by
  have hyp : 1 ≤ scenarioDevice.m_pwmperiod ∧ 0 ≤ scenarioDevice.m_pwmcount ∧
      scenarioDevice.m_pwmcount < scenarioDevice.m_pwmperiod ∧
      -32767 ≤ scenarioDevice.m_pwmphase ∧ scenarioDevice.m_pwmphase ≤ 32767 := by decide
  obtain ⟨h1, h2, h3, h4, h5⟩ := hyp
  obtain ⟨hlen, hs, _⟩ := FillOutput_samples scenarioDevice [0, 1 / 2, 1] 512 h1 h2 h3 h4 h5
  have hov : (FillOutput scenarioDevice [0, 1 / 2, 1] 512).1.m_outputvalues = [0, 256, 512] :=
    scenario_values
  rw [hov] at hs
  refine ⟨⟨h1, h2, h3, h4, h5⟩, scenario_period, hov, hlen, ?_⟩
  intro i hi
  have e1 : ((0 : Int) + (i : Int)) % 512 = (i : Int) := by omega
  have e2 : (((0 : Int) + (i : Int)) / 512).toNat = 0 := by omega
  have g0 := hs i 0 hi (by decide)
  have g1 := hs i 1 hi (by decide)
  have g2 := hs i 2 hi (by decide)
  have hcnt : scenarioDevice.m_pwmcount = 0 := rfl
  have hper : scenarioDevice.m_pwmperiod = 512 := rfl
  have hph : scenarioDevice.m_pwmphase = 32767 := rfl
  have e3 : ([0, 1 / 2, 1] : List ℚ).length = 3 := rfl
  simp only [hcnt, hper, hph, e3, e1, e2, pow_zero, mul_one] at g0 g1 g2
  refine ⟨?_, ?_, ?_⟩
  · rw [g0]; simp
  · rw [g1]
    by_cases h : i < 256
    · have : (i : Int) < 256 := by omega
      simp [h, this]
    · have : ¬ ((i : Int) < 256) := by omega
      simp [h, this]
  · rw [g2]
    have : (i : Int) < 512 := by omega
    simp [this]

/-- C2, as stated for every amplitude, fails at `s = -32768` (`P = 1`, `c = 0`,
one channel of intensity `1`, `F = 2`): the buffer is `[-32768, -32768]`, and
the sample of frame `1` is not `s * (-1) ^ ((c + 1) / P) = 32768`. -/
theorem FillOutput_samples_min_phase :
    (FillOutput minPhaseDevice [1] 2).2 = [-32768, -32768] ∧
    ¬ ((FillOutput minPhaseDevice [1] 2).2[1 * 1 + 0]? =
        some (if (minPhaseDevice.m_pwmcount + ((1 : Nat) : Int)) % minPhaseDevice.m_pwmperiod
              < (FillOutput minPhaseDevice [1] 2).1.m_outputvalues.getD 0 0
          then minPhaseDevice.m_pwmphase *
            (-1) ^ ((minPhaseDevice.m_pwmcount + ((1 : Nat) : Int)) /
              minPhaseDevice.m_pwmperiod).toNat
          else 0)) := by
  refine ⟨minPhaseDevice_buffer, ?_⟩
  have hov : (FillOutput minPhaseDevice [1] 2).1.m_outputvalues = [1] := minPhaseDevice_values
  rw [minPhaseDevice_buffer, hov]
  decide

/-- C3 (amended): for every period `P ≥ 1`, start state with
`0 ≤ pwmCount = c < P` and amplitude `s` in `[-32767, 32767]`, and every
frame count `F`, after `FillOutput` the counter is `(c + F) % P` (so
`0 ≤ pwmCount < pwmPeriod` still holds), the amplitude is
`s * (-1) ^ ((c + F) / P)` and the period is unchanged. -/
theorem FillOutput_carrier (d : CDeviceSound) (values : List ℚ) (F : Nat)
    (hP : 1 ≤ d.m_pwmperiod) (hc0 : 0 ≤ d.m_pwmcount) (hc : d.m_pwmcount < d.m_pwmperiod)
    (hs1 : -32767 ≤ d.m_pwmphase) (hs2 : d.m_pwmphase ≤ 32767) :
    (FillOutput d values F).1.m_pwmcount = (d.m_pwmcount + (F : Int)) % d.m_pwmperiod ∧
    0 ≤ (FillOutput d values F).1.m_pwmcount ∧
    (FillOutput d values F).1.m_pwmcount < (FillOutput d values F).1.m_pwmperiod ∧
    (FillOutput d values F).1.m_pwmphase =
      d.m_pwmphase * (-1) ^ ((d.m_pwmcount + (F : Int)) / d.m_pwmperiod).toNat ∧
    (FillOutput d values F).1.m_pwmperiod = d.m_pwmperiod := by
  obtain ⟨cn, pn, ec, ep, hlt⟩ := carrier_nat _ _ hc0 hc
  obtain ⟨g1, g2, g3, _, _, _⟩ := FillOutput_spec d values F cn pn ec ep hlt
  have hmod : (FillOutput d values F).1.m_pwmcount
      = (d.m_pwmcount + (F : Int)) % d.m_pwmperiod := by
    rw [g1, ec, ep, cast_mod_frame]
  refine ⟨hmod, ?_, ?_, ?_, g3⟩
  · rw [hmod]
    exact Int.emod_nonneg _ (by omega)
  · rw [hmod, g3]
    exact Int.emod_lt_of_pos _ (by omega)
  · rw [g2, flipPhase_iterate _ hs1 hs2, ec, ep, cast_div_frame]

/-- C3 at the scenario device (`P = 512`, `c = 0`, `s = 32767`) and `F = 700`:
the counter ends at `188` and the amplitude has been inverted once. -/
theorem FillOutput_carrier_witness :
    (1 ≤ scenarioDevice.m_pwmperiod ∧ 0 ≤ scenarioDevice.m_pwmcount ∧
      scenarioDevice.m_pwmcount < scenarioDevice.m_pwmperiod ∧
      -32767 ≤ scenarioDevice.m_pwmphase ∧ scenarioDevice.m_pwmphase ≤ 32767) ∧
    (FillOutput scenarioDevice [0, 1 / 2, 1] 700).1.m_pwmcount = 188 ∧
    (FillOutput scenarioDevice [0, 1 / 2, 1] 700).1.m_pwmphase = -32767 ∧
    (FillOutput scenarioDevice [0, 1 / 2, 1] 700).1.m_pwmperiod = 512 := by
  have hyp : 1 ≤ scenarioDevice.m_pwmperiod ∧ 0 ≤ scenarioDevice.m_pwmcount ∧
      scenarioDevice.m_pwmcount < scenarioDevice.m_pwmperiod ∧
      -32767 ≤ scenarioDevice.m_pwmphase ∧ scenarioDevice.m_pwmphase ≤ 32767 := by decide
  obtain ⟨h1, h2, h3, h4, h5⟩ := hyp
  obtain ⟨g1, _, _, g4, g5⟩ :=
    FillOutput_carrier scenarioDevice [0, 1 / 2, 1] 700 h1 h2 h3 h4 h5
  refine ⟨⟨h1, h2, h3, h4, h5⟩, ?_, ?_, ?_⟩
  · rw [g1]; decide
  · rw [g4]; decide
  · rw [g5]; rfl

/-- C3, as stated for every amplitude, fails at `s = -32768` (`P = 1`, `c = 0`,
`F = 1`): after the single inversion the amplitude is still `-32768`, not
`s * (-1) ^ ((c + F) / P) = 32768`. -/
theorem FillOutput_carrier_min_phase :
    (FillOutput minPhaseDevice [1] 1).1.m_pwmphase = -32768 ∧
    ¬ ((FillOutput minPhaseDevice [1] 1).1.m_pwmphase =
        minPhaseDevice.m_pwmphase *
          (-1) ^ ((minPhaseDevice.m_pwmcount + ((1 : Nat) : Int)) /
            minPhaseDevice.m_pwmperiod).toNat) := by
  have h : (FillOutput minPhaseDevice [1] 1).1.m_pwmphase = -32768 := by
    norm_num [FillOutput, minPhaseDevice, outputValues, toFloat_one, Round, Clamp, frameLoop,
      channelLoop, int16, List.replicate]
  refine ⟨h, ?_⟩
  rw [h]
  decide

theorem pwmWave_add_period (P : Nat) (hP : 0 < P) (o s : Int) (t : Nat) :
    pwmWave P o s (t + P) = - pwmWave P o s t := by
  unfold pwmWave
  rw [Nat.add_mod_right, Nat.add_div_right _ hP, pow_succ]
  split <;> ring

theorem pwmWave_sum_two_periods (P : Nat) (hP : 0 < P) (o s : Int) (c : Nat) :
    ∑ i in Finset.range (2 * P), pwmWave P o s (c + i) = 0 := by
  rw [two_mul, Finset.sum_range_add]
  have h : ∀ i, pwmWave P o s (c + (P + i)) = - pwmWave P o s (c + i) := by
    intro i
    rw [← pwmWave_add_period P hP o s (c + i)]
    congr 1
    omega
  simp only [h, Finset.sum_neg_distrib]
  ring

/-- Among `n` consecutive counter values from `0`, those below `o`. -/
theorem count_below (o : Int) : ∀ n : Nat,
    ∑ i in Finset.range n, (if (i : Int) < o then 1 else 0) = min n o.toNat := by
  intro n
  induction n with
  | zero => simp
  | succ n ih =>
    rw [Finset.sum_range_succ, ih]
    split <;> omega

/-- Among `P` consecutive samples, wherever they start, those whose counter
value is below `o`. -/
theorem count_residues (P : Nat) (o : Int) : ∀ c : Nat,
    ∑ i in Finset.range P, (if (((c + i) % P : Nat) : Int) < o then 1 else 0)
      = min P o.toNat := by
  intro c
  induction c with
  | zero =>
    rw [← count_below o P]
    apply Finset.sum_congr rfl
    intro i hi
    rw [Nat.zero_add, Nat.mod_eq_of_lt (Finset.mem_range.mp hi)]
  | succ c ih =>
    have h1 := Finset.sum_range_succ
      (fun i => if (((c + i) % P : Nat) : Int) < o then 1 else 0) P
    have h2 := Finset.sum_range_succ'
      (fun i => if (((c + i) % P : Nat) : Int) < o then 1 else 0) P
    rw [h1] at h2
    simp only [Nat.add_mod_right, Nat.add_zero] at h2
    rw [ih] at h2
    have h3 : ∀ i, c + 1 + i = c + (i + 1) := by intro i; omega
    simp only [h3]
    omega

theorem neg_one_pow_cases (s : Int) (q : Nat) :
    s * (-1) ^ q = s ∨ s * (-1) ^ q = -s := by
  rcases neg_one_pow_eq_or ℤ q with h | h <;> rw [h] <;> simp

/-- Over two periods, a sample is `s` or `-s` in the first `o` slots of each
period; the two signs swap between the two periods. -/
theorem pwmWave_pair (P : Nat) (hP : 0 < P) (o s : Int) (hs : s ≠ 0) (t : Nat) :
    ((if pwmWave P o s t = s then 1 else 0) + (if pwmWave P o s (t + P) = s then 1 else 0)
      = if ((t % P : Nat) : Int) < o then 1 else 0) ∧
    ((if pwmWave P o s t = -s then 1 else 0) + (if pwmWave P o s (t + P) = -s then 1 else 0)
      = if ((t % P : Nat) : Int) < o then 1 else 0) ∧
    ((if pwmWave P o s t = 0 then 1 else 0) + (if pwmWave P o s (t + P) = 0 then 1 else 0)
      + 2 * (if ((t % P : Nat) : Int) < o then 1 else 0) = 2) := by
  rw [pwmWave_add_period P hP]
  unfold pwmWave
  by_cases h : ((t % P : Nat) : Int) < o
  · simp only [h, if_true]
    rcases neg_one_pow_cases s (t / P) with e | e <;> rw [e] <;>
      refine ⟨?_, ?_, ?_⟩ <;> split_ifs <;> omega
  · simp only [h, if_false]
    refine ⟨?_, ?_, ?_⟩ <;> split_ifs <;> omega

theorem sum_two_periods (P : Nat) (f : Nat → Nat) (c : Nat) :
    ∑ i in Finset.range (2 * P), f (c + i)
      = ∑ i in Finset.range P, (f (c + i) + f (c + i + P)) := by
  rw [two_mul, Finset.sum_range_add, Finset.sum_add_distrib]
  congr 1
  apply Finset.sum_congr rfl
  intro i _
  congr 1
  omega

theorem pwmWave_counts (P : Nat) (hP : 0 < P) (o s : Int) (hs : s ≠ 0) (c : Nat) :
    ∑ i in Finset.range (2 * P), (if pwmWave P o s (c + i) = s then 1 else 0)
      = min P o.toNat ∧
    ∑ i in Finset.range (2 * P), (if pwmWave P o s (c + i) = -s then 1 else 0)
      = min P o.toNat ∧
    ∑ i in Finset.range (2 * P), (if pwmWave P o s (c + i) = 0 then 1 else 0)
      + 2 * min P o.toNat = 2 * P := by
  have hres := count_residues P o c
  refine ⟨?_, ?_, ?_⟩
  · rw [sum_two_periods P (fun t => if pwmWave P o s t = s then 1 else 0) c, ← hres]
    apply Finset.sum_congr rfl
    intro i _
    exact (pwmWave_pair P hP o s hs (c + i)).1
  · rw [sum_two_periods P (fun t => if pwmWave P o s t = -s then 1 else 0) c, ← hres]
    apply Finset.sum_congr rfl
    intro i _
    exact (pwmWave_pair P hP o s hs (c + i)).2.1
  · rw [sum_two_periods P (fun t => if pwmWave P o s t = 0 then 1 else 0) c, ← hres,
      Finset.mul_sum, ← Finset.sum_add_distrib]
    have h : ∀ i ∈ Finset.range P,
        ((if pwmWave P o s (c + i) = 0 then 1 else 0)
          + (if pwmWave P o s (c + i + P) = 0 then 1 else 0))
          + 2 * (if (((c + i) % P : Nat) : Int) < o then 1 else 0) = 2 := by
      intro i _
      exact (pwmWave_pair P hP o s hs (c + i)).2.2
    rw [Finset.sum_congr rfl h]
    simp [Nat.mul_comm]

theorem Clamp_bounds (x P : Int) (h : 0 ≤ P) : 0 ≤ Clamp x 0 P ∧ Clamp x 0 P ≤ P := by
  unfold Clamp
  split_ifs <;> omega

theorem outputValues_getD_bounds (P : Int) (h : 0 ≤ P) (values : List ℚ) (j : Nat) :
    0 ≤ (outputValues P values).getD j 0 ∧ (outputValues P values).getD j 0 ≤ P := by
  rw [List.getD_eq_getElem?_getD]
  unfold outputValues
  rw [List.getElem?_map]
  cases values[j]? with
  | none => simpa using h
  | some v => simpa using Clamp_bounds _ P h

/-- With an amplitude in `[-32767, 32767]` every sample of the buffer is the
carrier `pwmWave` at the running index `c + i`. -/
theorem FillOutput_getD_wave (d : CDeviceSound) (values : List ℚ) (F cn pn : Nat)
    (hc : d.m_pwmcount = (cn : Int)) (hp : d.m_pwmperiod = (pn : Int)) (hlt : cn < pn)
    (hs1 : -32767 ≤ d.m_pwmphase) (hs2 : d.m_pwmphase ≤ 32767)
    (i j : Nat) (hi : i < F) (hj : j < values.length) :
    (FillOutput d values F).2.getD (i * values.length + j) 0 =
      pwmWave pn ((outputValues d.m_pwmperiod values).getD j 0) d.m_pwmphase (cn + i) := by
  obtain ⟨_, _, _, _, _, h6⟩ := FillOutput_spec d values F cn pn hc hp hlt
  rw [List.getD_eq_getElem?_getD, h6 i j hi hj, flipPhase_iterate _ hs1 hs2, int16_of_range]
  · rfl
  · rcases neg_one_pow_cases d.m_pwmphase ((cn + i) / pn) with e | e <;> rw [e] <;> omega
  · rcases neg_one_pow_cases d.m_pwmphase ((cn + i) / pn) with e | e <;> rw [e] <;> omega

theorem pwmWave_scale (P : Nat) (o s : Int) (t : Nat) :
    pwmWave P o s t = s * pwmWave P o 1 t := by
  unfold pwmWave
  split <;> simp

theorem pwmWave_unit (P : Nat) (o : Int) (t : Nat) :
    pwmWave P o 1 t = 1 ∨ pwmWave P o 1 t = -1 ∨ pwmWave P o 1 t = 0 := by
  unfold pwmWave
  split
  · rcases neg_one_pow_cases 1 (t / P) with e | e
    · exact Or.inl e
    · exact Or.inr (Or.inl e)
  · exact Or.inr (Or.inr rfl)

/-- The `2 * P` samples of a channel split into `o` samples `s`, `o` samples
`-s` and zeros. -/
theorem pwmWave_partition (P : Nat) (hP : 0 < P) (o s : Int) (h0 : 0 ≤ o) (h1 : o ≤ (P : Int))
    (c : Nat) :
    ∃ A B : Finset Nat, A ⊆ Finset.range (2 * P) ∧ B ⊆ Finset.range (2 * P) ∧ Disjoint A B ∧
      (A.card : Int) = o ∧ (B.card : Int) = o ∧
      (∀ i ∈ A, pwmWave P o s (c + i) = s) ∧
      (∀ i ∈ B, pwmWave P o s (c + i) = -s) ∧
      (∀ i ∈ Finset.range (2 * P), i ∉ A → i ∉ B → pwmWave P o s (c + i) = 0) := by
  obtain ⟨k1, k2, _⟩ := pwmWave_counts P hP o 1 (by decide) c
  have hmin : min P o.toNat = o.toNat := by omega
  rw [hmin] at k1 k2
  refine ⟨(Finset.range (2 * P)).filter (fun i => pwmWave P o 1 (c + i) = 1),
    (Finset.range (2 * P)).filter (fun i => pwmWave P o 1 (c + i) = -1),
    Finset.filter_subset _ _, Finset.filter_subset _ _, ?_, ?_, ?_, ?_, ?_, ?_⟩
  · rw [Finset.disjoint_left]
    intro i hA hB
    rw [Finset.mem_filter] at hA hB
    rw [hA.2] at hB
    exact absurd hB.2 (by decide)
  · rw [Finset.card_filter, k1]
    omega
  · rw [Finset.card_filter, k2]
    omega
  · intro i hi
    rw [Finset.mem_filter] at hi
    rw [pwmWave_scale, hi.2, mul_one]
  · intro i hi
    rw [Finset.mem_filter] at hi
    rw [pwmWave_scale, hi.2]
    ring
  · intro i hi hA hB
    rw [Finset.mem_filter] at hA hB
    rcases pwmWave_unit P o (c + i) with e | e | e
    · exact absurd ⟨hi, e⟩ hA
    · exact absurd ⟨hi, e⟩ hB
    · rw [pwmWave_scale, e, mul_zero]

/-- C4 (amended): for every period `P ≥ 1`, start counter `0 ≤ c < P`,
amplitude `s` in `[-32767, 32767]` and channel intensities, one call of
`FillOutput` with `framecount = 2 * P` produces a buffer in which the `2 * P`
samples of each channel `j` sum to exactly `0`: they split into
`outputValue[j]` samples of value `s`, `outputValue[j]` samples of value `-s`
and zeros (when `s ≠ 0`, exactly `outputValue[j]` samples equal `s`,
`outputValue[j]` equal `-s` and `2 * P - 2 * outputValue[j]` equal `0`). -/
theorem FillOutput_zero_average (d : CDeviceSound) (values : List ℚ) (j : Nat)
    (hP : 1 ≤ d.m_pwmperiod) (hc0 : 0 ≤ d.m_pwmcount) (hc : d.m_pwmcount < d.m_pwmperiod)
    (hs1 : -32767 ≤ d.m_pwmphase) (hs2 : d.m_pwmphase ≤ 32767) (hj : j < values.length) :
    ∑ i in Finset.range (2 * d.m_pwmperiod.toNat),
      (FillOutput d values (2 * d.m_pwmperiod.toNat)).2.getD (i * values.length + j) 0 = 0 ∧
    (∃ A B : Finset Nat, A ⊆ Finset.range (2 * d.m_pwmperiod.toNat) ∧
      B ⊆ Finset.range (2 * d.m_pwmperiod.toNat) ∧ Disjoint A B ∧
      (A.card : Int)
        = (FillOutput d values (2 * d.m_pwmperiod.toNat)).1.m_outputvalues.getD j 0 ∧
      (B.card : Int)
        = (FillOutput d values (2 * d.m_pwmperiod.toNat)).1.m_outputvalues.getD j 0 ∧
      (∀ i ∈ A,
        (FillOutput d values (2 * d.m_pwmperiod.toNat)).2.getD (i * values.length + j) 0
          = d.m_pwmphase) ∧
      (∀ i ∈ B,
        (FillOutput d values (2 * d.m_pwmperiod.toNat)).2.getD (i * values.length + j) 0
          = - d.m_pwmphase) ∧
      (∀ i ∈ Finset.range (2 * d.m_pwmperiod.toNat), i ∉ A → i ∉ B →
        (FillOutput d values (2 * d.m_pwmperiod.toNat)).2.getD (i * values.length + j) 0
          = 0)) ∧
    (d.m_pwmphase ≠ 0 →
      (((Finset.range (2 * d.m_pwmperiod.toNat)).filter (fun i =>
          (FillOutput d values (2 * d.m_pwmperiod.toNat)).2.getD (i * values.length + j) 0
            = d.m_pwmphase)).card : Int)
        = (FillOutput d values (2 * d.m_pwmperiod.toNat)).1.m_outputvalues.getD j 0 ∧
      (((Finset.range (2 * d.m_pwmperiod.toNat)).filter (fun i =>
          (FillOutput d values (2 * d.m_pwmperiod.toNat)).2.getD (i * values.length + j) 0
            = - d.m_pwmphase)).card : Int)
        = (FillOutput d values (2 * d.m_pwmperiod.toNat)).1.m_outputvalues.getD j 0 ∧
      (((Finset.range (2 * d.m_pwmperiod.toNat)).filter (fun i =>
          (FillOutput d values (2 * d.m_pwmperiod.toNat)).2.getD (i * values.length + j) 0
            = 0)).card : Int)
        = 2 * d.m_pwmperiod
          - 2 * (FillOutput d values (2 * d.m_pwmperiod.toNat)).1.m_outputvalues.getD j 0) := by
  have _ := hP
  obtain ⟨cn, pn, ec, ep, hlt⟩ := carrier_nat _ _ hc0 hc
  have hpn : d.m_pwmperiod.toNat = pn := by omega
  have hpos : 0 < pn := by omega
  obtain ⟨_, _, _, hov, _, _⟩ := FillOutput_spec d values (2 * pn) cn pn ec ep hlt
  have hw : ∀ i ∈ Finset.range (2 * pn),
      (FillOutput d values (2 * pn)).2.getD (i * values.length + j) 0 =
        pwmWave pn ((outputValues d.m_pwmperiod values).getD j 0) d.m_pwmphase (cn + i) := by
    intro i hi
    exact FillOutput_getD_wave d values (2 * pn) cn pn ec ep hlt hs1 hs2 i j
      (Finset.mem_range.mp hi) hj
  obtain ⟨b1, b2⟩ := outputValues_getD_bounds d.m_pwmperiod (by omega) values j
  rw [hpn, hov]
  refine ⟨?_, ?_, ?_⟩
  · rw [Finset.sum_congr rfl hw]
    exact pwmWave_sum_two_periods pn hpos _ _ cn
  · obtain ⟨A, B, hA, hB, hdis, cA, cB, vA, vB, vZ⟩ := pwmWave_partition pn hpos
      ((outputValues d.m_pwmperiod values).getD j 0) d.m_pwmphase b1 (by omega) cn
    refine ⟨A, B, hA, hB, hdis, cA, cB, ?_, ?_, ?_⟩
    · intro i hi
      rw [hw i (hA hi)]
      exact vA i hi
    · intro i hi
      rw [hw i (hB hi)]
      exact vB i hi
    · intro i hi h1 h2
      rw [hw i hi]
      exact vZ i hi h1 h2
  · intro hs
    obtain ⟨k1, k2, k3⟩ := pwmWave_counts pn hpos
      ((outputValues d.m_pwmperiod values).getD j 0) d.m_pwmphase hs cn
    have hmin : min pn ((outputValues d.m_pwmperiod values).getD j 0).toNat
        = ((outputValues d.m_pwmperiod values).getD j 0).toNat := by omega
    rw [hmin] at k1 k2 k3
    refine ⟨?_, ?_, ?_⟩
    · rw [Finset.card_filter, Finset.sum_congr rfl (fun i hi => by rw [hw i hi]), k1]
      omega
    · rw [Finset.card_filter, Finset.sum_congr rfl (fun i hi => by rw [hw i hi]), k2]
      omega
    · rw [Finset.card_filter, Finset.sum_congr rfl (fun i hi => by rw [hw i hi])]
      omega

/-- C4 at the scenario device (`P = 512`, `s = 32767`), channel 2 of duty
count `256`, over `1024` frames: the samples sum to `0`; `256` are `32767`,
`256` are `-32767` and `512` are `0`. -/
theorem FillOutput_zero_average_witness :
    (1 ≤ scenarioDevice.m_pwmperiod ∧ 0 ≤ scenarioDevice.m_pwmcount ∧
      scenarioDevice.m_pwmcount < scenarioDevice.m_pwmperiod ∧
      -32767 ≤ scenarioDevice.m_pwmphase ∧ scenarioDevice.m_pwmphase ≤ 32767 ∧
      scenarioDevice.m_pwmphase ≠ 0) ∧
    ∑ i in Finset.range 1024,
      (FillOutput scenarioDevice [0, 1 / 2, 1] 1024).2.getD (i * 3 + 1) 0 = 0 ∧
    (((Finset.range 1024).filter (fun i =>
        (FillOutput scenarioDevice [0, 1 / 2, 1] 1024).2.getD (i * 3 + 1) 0 = 32767)).card : Int)
      = 256 ∧
    (((Finset.range 1024).filter (fun i =>
        (FillOutput scenarioDevice [0, 1 / 2, 1] 1024).2.getD (i * 3 + 1) 0 = -32767)).card : Int)
      = 256 ∧
    (((Finset.range 1024).filter (fun i =>
        (FillOutput scenarioDevice [0, 1 / 2, 1] 1024).2.getD (i * 3 + 1) 0 = 0)).card : Int)
      = 512 := by
  have hyp : 1 ≤ scenarioDevice.m_pwmperiod ∧ 0 ≤ scenarioDevice.m_pwmcount ∧
      scenarioDevice.m_pwmcount < scenarioDevice.m_pwmperiod ∧
      -32767 ≤ scenarioDevice.m_pwmphase ∧ scenarioDevice.m_pwmphase ≤ 32767 ∧
      scenarioDevice.m_pwmphase ≠ 0 := by decide
  obtain ⟨h1, h2, h3, h4, h5, h6⟩ := hyp
  obtain ⟨g1, _, g2⟩ :=
    FillOutput_zero_average scenarioDevice [0, 1 / 2, 1] 1 h1 h2 h3 h4 h5 (by decide)
  obtain ⟨k1, k2, k3⟩ := g2 h6
  have hov : (FillOutput scenarioDevice [0, 1 / 2, 1] (2 * scenarioDevice.m_pwmperiod.toNat)).1.m_outputvalues
      = [0, 256, 512] := scenario_values
  rw [hov] at k1 k2 k3
  exact ⟨⟨h1, h2, h3, h4, h5, h6⟩, g1, k1, k2, k3⟩

/-- C4, as stated for every amplitude, fails at `s = -32768` (`P = 1`, `c = 0`,
one channel of intensity `1`, `F = 2 * P`): the two samples are both `-32768`
and their sum is `-65536`, not `0`. -/
theorem FillOutput_zero_average_min_phase :
    ¬ (∑ i in Finset.range (2 * minPhaseDevice.m_pwmperiod.toNat),
        (FillOutput minPhaseDevice [1] (2 * minPhaseDevice.m_pwmperiod.toNat)).2.getD
          (i * ([1] : List ℚ).length + 0) 0 = 0) := by
  have h : (FillOutput minPhaseDevice [1] (2 * minPhaseDevice.m_pwmperiod.toNat)).2
      = [-32768, -32768] := minPhaseDevice_buffer
  rw [h]
  decide

/-- C1: for every period `P ≥ 1`, every channel count and vector of channel
intensities, one call of `FillOutput` with `framecount = P` that starts with
`pwmCount = 0` (and a non-zero 16-bit amplitude) writes, for each channel `j`,
exactly `outputValue[j]` non-zero samples into the channel's interleaved slots
and `P - outputValue[j]` zero samples, `outputValue[j]` being the clamped duty
count computed by that call. -/
theorem FillOutput_one_period (d : CDeviceSound) (values : List ℚ) (j : Nat)
    (hP : 1 ≤ d.m_pwmperiod) (hc : d.m_pwmcount = 0)
    (hs0 : d.m_pwmphase ≠ 0) (hs1 : -32768 ≤ d.m_pwmphase) (hs2 : d.m_pwmphase ≤ 32767)
    (hj : j < values.length) :
    (FillOutput d values d.m_pwmperiod.toNat).1.m_outputvalues
      = values.map (fun v =>
          Clamp (Round (toFloat (toFloat v * toFloat (d.m_pwmperiod : ℚ)))) 0
            d.m_pwmperiod) ∧
    (((Finset.range d.m_pwmperiod.toNat).filter (fun i =>
        (FillOutput d values d.m_pwmperiod.toNat).2.getD (i * values.length + j) 0 ≠ 0)).card : Int)
      = (FillOutput d values d.m_pwmperiod.toNat).1.m_outputvalues.getD j 0 ∧
    (((Finset.range d.m_pwmperiod.toNat).filter (fun i =>
        (FillOutput d values d.m_pwmperiod.toNat).2.getD (i * values.length + j) 0 = 0)).card : Int)
      = d.m_pwmperiod - (FillOutput d values d.m_pwmperiod.toNat).1.m_outputvalues.getD j 0 := by
  obtain ⟨cn, pn, ec, ep, hlt⟩ := carrier_nat d.m_pwmcount d.m_pwmperiod (by omega) (by omega)
  have hcn : cn = 0 := by omega
  subst hcn
  have hpn : d.m_pwmperiod.toNat = pn := by omega
  obtain ⟨_, _, _, hov, _, h6⟩ := FillOutput_spec d values pn 0 pn ec ep hlt
  obtain ⟨b1, b2⟩ := outputValues_getD_bounds d.m_pwmperiod (by omega) values j
  have hw : ∀ i ∈ Finset.range pn,
      (FillOutput d values pn).2.getD (i * values.length + j) 0 =
        if (i : Int) < (outputValues d.m_pwmperiod values).getD j 0 then d.m_pwmphase else 0 := by
    intro i hi
    have hi2 := Finset.mem_range.mp hi
    rw [List.getD_eq_getElem?_getD, h6 i j hi2 hj, Nat.zero_add, Nat.mod_eq_of_lt hi2,
      Nat.div_eq_of_lt hi2, Function.iterate_zero, id, int16_of_range _ hs1 hs2]
    rfl
  have hcount := count_below ((outputValues d.m_pwmperiod values).getD j 0) pn
  rw [hpn, hov]
  refine ⟨rfl, ?_, ?_⟩
  · have e : ∀ i ∈ Finset.range pn,
        (if (if (i : Int) < (outputValues d.m_pwmperiod values).getD j 0
              then d.m_pwmphase else 0) ≠ 0 then 1 else 0)
          = if (i : Int) < (outputValues d.m_pwmperiod values).getD j 0 then 1 else 0 := by
      intro i _
      by_cases hlt : (i : Int) < (outputValues d.m_pwmperiod values).getD j 0
      · simp only [hlt, if_true, ne_eq, hs0, not_false_eq_true]
      · simp only [hlt, if_false, ne_eq, not_true_eq_false]
    rw [Finset.card_filter, Finset.sum_congr rfl (fun i hi => by rw [hw i hi]),
      Finset.sum_congr rfl e, hcount]
    omega
  · have e : ∀ i ∈ Finset.range pn,
        (if (if (i : Int) < (outputValues d.m_pwmperiod values).getD j 0
              then d.m_pwmphase else 0) = 0 then 1 else 0)
          + (if (i : Int) < (outputValues d.m_pwmperiod values).getD j 0 then 1 else 0) = 1 := by
      intro i _
      by_cases hlt : (i : Int) < (outputValues d.m_pwmperiod values).getD j 0
      · simp only [hlt, if_true, hs0, if_false]
      · simp only [hlt, if_false, if_true]
    have hsum := Finset.sum_congr rfl e
    rw [Finset.sum_add_distrib, hcount] at hsum
    rw [Finset.card_filter, Finset.sum_congr rfl (fun i hi => by rw [hw i hi])]
    simp only [Finset.sum_const, Finset.card_range, smul_eq_mul, mul_one] at hsum
    omega

/-- C1 at the scenario device (`P = 512`), channel 2 of duty count `256`:
`256` non-zero samples and `256` zero samples in one period. -/
theorem FillOutput_one_period_witness :
    (1 ≤ scenarioDevice.m_pwmperiod ∧ scenarioDevice.m_pwmcount = 0 ∧
      scenarioDevice.m_pwmphase ≠ 0 ∧ -32768 ≤ scenarioDevice.m_pwmphase ∧
      scenarioDevice.m_pwmphase ≤ 32767) ∧
    (FillOutput scenarioDevice [0, 1 / 2, 1] 512).1.m_outputvalues = [0, 256, 512] ∧
    (((Finset.range 512).filter (fun i =>
        (FillOutput scenarioDevice [0, 1 / 2, 1] 512).2.getD (i * 3 + 1) 0 ≠ 0)).card : Int)
      = 256 ∧
    (((Finset.range 512).filter (fun i =>
        (FillOutput scenarioDevice [0, 1 / 2, 1] 512).2.getD (i * 3 + 1) 0 = 0)).card : Int)
      = 256 := by
  have hyp : 1 ≤ scenarioDevice.m_pwmperiod ∧ scenarioDevice.m_pwmcount = 0 ∧
      scenarioDevice.m_pwmphase ≠ 0 ∧ -32768 ≤ scenarioDevice.m_pwmphase ∧
      scenarioDevice.m_pwmphase ≤ 32767 := by decide
  obtain ⟨h1, h2, h3, h4, h5⟩ := hyp
  obtain ⟨_, g2, g3⟩ :=
    FillOutput_one_period scenarioDevice [0, 1 / 2, 1] 1 h1 h2 h3 h4 h5 (by decide)
  have hov : (FillOutput scenarioDevice [0, 1 / 2, 1] scenarioDevice.m_pwmperiod.toNat).1.m_outputvalues
      = [0, 256, 512] := scenario_values
  rw [hov] at g2 g3
  exact ⟨⟨h1, h2, h3, h4, h5⟩, hov, g2, g3⟩

theorem Round_bounds (y : ℚ) (P : Int) (h0 : 0 ≤ y) (h1 : y ≤ (P : ℚ)) :
    0 ≤ Round y ∧ Round y ≤ P := by
  unfold Round
  rw [if_pos h0]
  constructor
  · apply Int.floor_nonneg.mpr
    linarith
  · have : ⌊y + 1 / 2⌋ < P + 1 := by
      apply Int.floor_lt.mpr
      push_cast
      linarith
    omega

theorem Round_zero : Round 0 = 0 := by
  norm_num [Round]

theorem Round_intCast (P : Int) (hP : 0 ≤ P) : Round (P : ℚ) = P := by
  have hPq : (0 : ℚ) ≤ (P : ℚ) := by exact_mod_cast hP
  unfold Round
  rw [if_pos hPq, Int.floor_int_add]
  norm_num

theorem toFloat_intCast (P : Int) (h0 : 0 ≤ P) (h1 : P ≤ 16777216) :
    toFloat (P : ℚ) = (P : ℚ) := by
  obtain ⟨n, rfl⟩ := Int.eq_ofNat_of_zero_le h0
  have hn : n ≤ 16777216 := by omega
  simpa using toFloat_natCast n hn

/-- The `float` product of an intensity in `[0, 1]` and a period that is a
`float` lies between `0` and the period. -/
theorem float_product_bounds (v : ℚ) (P : Int) (hP : 0 ≤ P) (hrep : toFloat (P : ℚ) = (P : ℚ))
    (h0 : 0 ≤ v) (h1 : v ≤ 1) :
    0 ≤ toFloat (toFloat v * toFloat (P : ℚ)) ∧
    toFloat (toFloat v * toFloat (P : ℚ)) ≤ (P : ℚ) := by
  have hPq : (0 : ℚ) ≤ (P : ℚ) := by exact_mod_cast hP
  have hv0 : 0 ≤ toFloat v := roundBinary_nonneg 24 (-126) v h0
  have hv1 : toFloat v ≤ 1 := by
    rcases eq_or_lt_of_le h0 with hz | hpos
    · rw [← hz, toFloat_zero]
      exact zero_le_one
    · exact roundBinary_le_of_fixed 24 (-126) v 1 hpos h1 toFloat_one
  have hx0 : (0 : ℚ) ≤ toFloat v * (P : ℚ) := mul_nonneg hv0 hPq
  have hx1 : toFloat v * (P : ℚ) ≤ (P : ℚ) := by nlinarith
  rw [hrep]
  refine ⟨roundBinary_nonneg 24 (-126) _ hx0, ?_⟩
  rcases eq_or_lt_of_le hx0 with hz | hpos
  · rw [← hz, toFloat_zero]
    exact hPq
  · exact roundBinary_le_of_fixed 24 (-126) _ _ hpos hx1 hrep

/-- C5 (amended): for every period `P ≥ 0` and every channel intensity `v`, the
duty count that `FillOutput` stores for the channel is
`Clamp(Round(fl(fl(v) * fl(P))), 0, P)`, where `fl` rounds to single precision
(the product in the code is `float * int`, and `fl(v) = v` for the `float`
that `GetValue` returns), and it lies in `[0, P]`. When `P` is a
single-precision number (every `P ≤ 2 ^ 24` is) and `v` is in `[0, 1]`, the
clamp changes nothing and `v = 1` gives `P`; `v = 0` gives `0` for every
`P ≥ 0`. -/
theorem FillOutput_duty_count (d : CDeviceSound) (values : List ℚ) (F j : Nat) (v : ℚ)
    (hP : 0 ≤ d.m_pwmperiod) (hv : values[j]? = some v) :
    (FillOutput d values F).1.m_outputvalues[j]?
      = some (Clamp (Round (toFloat (toFloat v * toFloat (d.m_pwmperiod : ℚ)))) 0
          d.m_pwmperiod) ∧
    0 ≤ (FillOutput d values F).1.m_outputvalues.getD j 0 ∧
    (FillOutput d values F).1.m_outputvalues.getD j 0 ≤ d.m_pwmperiod ∧
    (toFloat (d.m_pwmperiod : ℚ) = (d.m_pwmperiod : ℚ) → 0 ≤ v → v ≤ 1 →
      (FillOutput d values F).1.m_outputvalues.getD j 0
        = Round (toFloat (toFloat v * (d.m_pwmperiod : ℚ)))) ∧
    (v = 0 → (FillOutput d values F).1.m_outputvalues.getD j 0 = 0) ∧
    (toFloat (d.m_pwmperiod : ℚ) = (d.m_pwmperiod : ℚ) → v = 1 →
      (FillOutput d values F).1.m_outputvalues.getD j 0 = d.m_pwmperiod) ∧
    (d.m_pwmperiod ≤ 16777216 → toFloat (d.m_pwmperiod : ℚ) = (d.m_pwmperiod : ℚ)) := by
  have hstored : (FillOutput d values F).1.m_outputvalues[j]?
      = some (Clamp (Round (toFloat (toFloat v * toFloat (d.m_pwmperiod : ℚ)))) 0
          d.m_pwmperiod) := by
    show (outputValues d.m_pwmperiod values)[j]? = _
    unfold outputValues
    rw [List.getElem?_map, hv]
    rfl
  have hget : (FillOutput d values F).1.m_outputvalues.getD j 0
      = Clamp (Round (toFloat (toFloat v * toFloat (d.m_pwmperiod : ℚ)))) 0 d.m_pwmperiod := by
    rw [List.getD_eq_getElem?_getD, hstored]
    rfl
  obtain ⟨b1, b2⟩ := Clamp_bounds (Round (toFloat (toFloat v * toFloat (d.m_pwmperiod : ℚ))))
    d.m_pwmperiod hP
  refine ⟨hstored, ?_, ?_, ?_, ?_, ?_, ?_⟩
  · rw [hget]; exact b1
  · rw [hget]; exact b2
  · intro hrep h0 h1
    obtain ⟨f0, f1⟩ := float_product_bounds v d.m_pwmperiod hP hrep h0 h1
    obtain ⟨r1, r2⟩ := Round_bounds _ d.m_pwmperiod f0 f1
    rw [hget]
    rw [hrep] at r1 r2 ⊢
    unfold Clamp
    split_ifs <;> omega
  · intro h0
    rw [hget, h0, toFloat_zero, zero_mul, toFloat_zero, Round_zero]
    unfold Clamp
    split_ifs <;> omega
  · intro hrep h1
    rw [hget, h1, toFloat_one, one_mul, hrep, hrep, Round_intCast _ hP]
    unfold Clamp
    split_ifs <;> omega
  · intro hle
    exact toFloat_intCast _ hP hle

/-- C5 at the scenario device: intensity `1/2` with period `512` is stored as
the duty count `256`. -/
theorem FillOutput_duty_count_witness :
    (0 ≤ scenarioDevice.m_pwmperiod ∧ ([0, 1 / 2, 1] : List ℚ)[1]? = some (1 / 2)) ∧
    (FillOutput scenarioDevice [0, 1 / 2, 1] 512).1.m_outputvalues[1]? = some 256 := by
  have h1 : 0 ≤ scenarioDevice.m_pwmperiod := by decide
  have h2 : ([0, 1 / 2, 1] : List ℚ)[1]? = some (1 / 2) := rfl
  obtain ⟨g, _⟩ := FillOutput_duty_count scenarioDevice [0, 1 / 2, 1] 512 1 (1 / 2) h1 h2
  refine ⟨⟨h1, h2⟩, ?_⟩
  rw [g]
  have hp : scenarioDevice.m_pwmperiod = 512 := rfl
  rw [hp]
  simp only [Int.cast_ofNat, toFloat_half, toFloat_512]
  norm_num [toFloat_256, Round, Clamp]

/-- C5, as stated with the product `v * P` and for every `P`, fails twice.
With `P = 470` and the float `v = 0x1.a2509cp-9` in `[0, 1]` the stored duty
count is `2` (the `float` product is `1.5`), while
`Clamp(Round(v * P), 0, P)` is `1` (the product is `1.49999997..`). With
`P = 2 ^ 24 + 1` and `v = 1` the stored duty count is `2 ^ 24`, not `P` (the
period converts to the `float` `2 ^ 24`). -/
theorem FillOutput_duty_count_exact_product :
    ((0 : ℚ) ≤ 13707342 / 4294967296 ∧ (13707342 / 4294967296 : ℚ) ≤ 1) ∧
    (FillOutput roundingDevice [13707342 / 4294967296] 1).1.m_outputvalues = [2] ∧
    Clamp (Round ((13707342 / 4294967296 : ℚ) * (roundingDevice.m_pwmperiod : ℚ))) 0
      roundingDevice.m_pwmperiod = 1 ∧
    ¬ ((FillOutput roundingDevice [13707342 / 4294967296] 1).1.m_outputvalues[0]?
        = some (Clamp (Round ((13707342 / 4294967296 : ℚ) * (roundingDevice.m_pwmperiod : ℚ)))
            0 roundingDevice.m_pwmperiod)) ∧
    (FillOutput largePeriodDevice [1] 1).1.m_outputvalues = [16777216] ∧
    ¬ ((FillOutput largePeriodDevice [1] 1).1.m_outputvalues[0]?
        = some largePeriodDevice.m_pwmperiod) := by
  have hs1 : (FillOutput roundingDevice [13707342 / 4294967296] 1).1.m_outputvalues = [2] := by
    show outputValues 470 [13707342 / 4294967296] = [2]
    unfold outputValues
    simp only [List.map_cons, List.map_nil, Int.cast_ofNat, toFloat_470, toFloat_intensity,
      toFloat_near_three_halves]
    norm_num [Round, Clamp]
  have hc1 : Clamp (Round ((13707342 / 4294967296 : ℚ) * (roundingDevice.m_pwmperiod : ℚ))) 0
      roundingDevice.m_pwmperiod = 1 := by
    norm_num [roundingDevice, scenarioDevice, Round, Clamp]
  have hs2 : (FillOutput largePeriodDevice [1] 1).1.m_outputvalues = [16777216] := by
    show outputValues 16777217 [1] = [16777216]
    unfold outputValues
    simp only [List.map_cons, List.map_nil, Int.cast_ofNat, toFloat_one, toFloat_16777217,
      one_mul, toFloat_16777216]
    norm_num [Round, Clamp]
  have hp2 : largePeriodDevice.m_pwmperiod = 16777217 := rfl
  refine ⟨by norm_num, hs1, hc1, ?_, hs2, ?_⟩
  · rw [hs1, hc1]
    decide
  · rw [hs2, hp2]
    decide

/-! ## `CloseDevice` and `WriteOutput` -/

/-- C7: for every combination of the lifecycle flags on entry and every
combination of error codes returned by the abort, close and release calls,
`CloseDevice` ends with `initialized = opened = started = false`, and the
subsystem calls it issues are exactly: abort-stream if `started` was true,
then close-stream if `opened` was true, then the gate release if
`initialized` was true; an error code changes only the log. -/
theorem CloseDevice_teardown (env : PaEnv) (d : CDeviceSound) :
    (CloseDevice env d).dev.m_initialized = false ∧
    (CloseDevice env d).dev.m_opened = false ∧
    (CloseDevice env d).dev.m_started = false ∧
    (CloseDevice env d).calls.map Prod.fst =
      (if d.m_started then [PaCall.abortStream] else []) ++
      (if d.m_opened then [PaCall.closeStream] else []) ++
      (if d.m_initialized then [PaCall.deinit] else []) ∧
    (CloseDevice env d).logs =
      (if d.m_started ∧ env.Pa_AbortStream ≠ paNoError
        then [LogMsg.error env.Pa_AbortStream] else []) ++
      (if d.m_opened ∧ env.Pa_CloseStream ≠ paNoError
        then [LogMsg.error env.Pa_CloseStream] else []) ++
      (if d.m_initialized ∧ env.DeInit ≠ paNoError
        then [LogMsg.error env.DeInit] else []) := by
  unfold CloseDevice closeInitialized closeOpened closeStarted
  cases hs : d.m_started <;> cases ho : d.m_opened <;> cases hi : d.m_initialized <;>
    simp [hs, ho, hi]

/-- C8: with `stop1`, `live1` the stop request and liveness flag read after
the first one-second wait and `stop2`, `live2` those read after the second,
`WriteOutput` returns failure exactly when all four are false; it returns
success whenever a stop request is observed at a wait point, whatever the
liveness flag; it waits a second time only when `stop1` and `live1` are both
false; and it resets the liveness flag before the first wait. -/
theorem WriteOutput_watchdog (o : Observed) :
    ((WriteOutput o).1 = false ↔
      (o.stop1 = false ∧ o.live1 = false ∧ o.stop2 = false ∧ o.live2 = false)) ∧
    (o.stop1 = true → (WriteOutput o).1 = true) ∧
    (o.stop1 = false ∧ o.live1 = false ∧ o.stop2 = true → (WriteOutput o).1 = true) ∧
    ((WriteOutput o).2.count (WatchStep.usleep 1000000) = 2 ↔
      (o.stop1 = false ∧ o.live1 = false)) ∧
    ((WriteOutput o).2.count (WatchStep.usleep 1000000) = 1 ↔
      ¬ (o.stop1 = false ∧ o.live1 = false)) ∧
    (WriteOutput o).2.take 2 = [WatchStep.resetSignal, WatchStep.usleep 1000000] := by
  obtain ⟨s1, l1, s2, l2⟩ := o
  cases s1 <;> cases l1 <;> cases s2 <;> cases l2 <;> decide

/-! ## `SetupDevice` -/

theorem searchLoop_none (env : PaEnv) (output : String) :
    ∀ (n i : Nat) (info : PaDeviceInfo),
      (∀ k, i ≤ k → k < i + n → (env.Pa_GetDeviceInfo k).name ≠ output) →
      (searchLoop env output n i info).1 = -1 := by
  intro n
  induction n with
  | zero => intro i info _; rfl
  | succ n ih =>
    intro i info h
    have hi : ¬ (output = (env.Pa_GetDeviceInfo i).name) := by
      intro e
      exact h i (Nat.le_refl _) (by omega) e.symm
    simp only [searchLoop, hi, if_false]
    exact ih (i + 1) _ (fun k h1 h2 => h k (by omega) (by omega))

/-- The search loop stops at the first device whose name matches, and the
cursor `deviceinfo` it leaves is the record of that device. -/
theorem searchLoop_first (env : PaEnv) (output : String) :
    ∀ (n i : Nat) (info : PaDeviceInfo) (k : Nat), i ≤ k → k < i + n →
      (env.Pa_GetDeviceInfo k).name = output →
      (∀ m, i ≤ m → m < k → (env.Pa_GetDeviceInfo m).name ≠ output) →
      searchLoop env output n i info = ((k : Int), env.Pa_GetDeviceInfo k) := by
  intro n
  induction n with
  | zero => intro i info k h1 h2; omega
  | succ n ih =>
    intro i info k h1 h2 hk hfirst
    by_cases hik : i = k
    · subst hik
      simp only [searchLoop, hk, if_true]
    · have hi : ¬ (output = (env.Pa_GetDeviceInfo i).name) := by
        intro e
        exact hfirst i (Nat.le_refl _) (by omega) e.symm
      simp only [searchLoop, hi, if_false]
      exact ih (i + 1) _ k (by omega) (by omega) hk (fun m h3 h4 => hfirst m (by omega) h4)

theorem toSizeT_lt (x : Int) (n : Nat) (h0 : 0 ≤ x) (h : x < (n : Int)) : toSizeT x < n := by
  unfold toSizeT
  omega

/-- The stream is opened only after the whole negotiation has succeeded. -/
theorem SetupDevice_not_negotiated (env : PaEnv) (d : CDeviceSound)
    (h : env.Init ≠ paNoError ∨ env.Pa_GetDeviceCount ≤ 0 ∨
      (searchLoop env d.m_output env.Pa_GetDeviceCount.toNat 0
        (env.Pa_GetDeviceInfo (env.Pa_GetDeviceCount.toNat - 1))).1 = -1 ∨
      toSizeT (searchLoop env d.m_output env.Pa_GetDeviceCount.toNat 0
        (env.Pa_GetDeviceInfo (env.Pa_GetDeviceCount.toNat - 1))).2.maxOutputChannels
          < d.channels ∨
      env.Pa_IsFormatSupported
        { channelCount := d.channels,
          device := (searchLoop env d.m_output env.Pa_GetDeviceCount.toNat 0
            (env.Pa_GetDeviceInfo (env.Pa_GetDeviceCount.toNat - 1))).1,
          sampleFormat := paInt16, suggestedLatency := toDouble ((d.m_latency : ℚ) / 1000) } d.m_rate
        ≠ paFormatIsSupported) :
    (SetupDevice env d).ret = false ∧ (SetupDevice env d).calls = [(PaCall.init, d)] := by
  generalize hr : SetupDevice env d = r
  unfold SetupDevice at hr
  simp only [] at hr
  generalize searchLoop env d.m_output env.Pa_GetDeviceCount.toNat 0
    (env.Pa_GetDeviceInfo (env.Pa_GetDeviceCount.toNat - 1)) = found at hr h
  by_cases h1 : env.Init ≠ paNoError
  · rw [if_pos h1] at hr
    subst hr
    exact ⟨rfl, rfl⟩
  rw [if_neg h1] at hr
  by_cases h2 : env.Pa_GetDeviceCount < 0
  · rw [if_pos h2] at hr
    subst hr
    exact ⟨rfl, rfl⟩
  rw [if_neg h2] at hr
  by_cases h3 : env.Pa_GetDeviceCount = 0
  · rw [if_pos h3] at hr
    subst hr
    exact ⟨rfl, rfl⟩
  rw [if_neg h3] at hr
  by_cases h4 : found.1 = -1
  · rw [if_pos h4] at hr
    subst hr
    exact ⟨rfl, rfl⟩
  rw [if_neg h4] at hr
  by_cases h5 : toSizeT found.2.maxOutputChannels < d.channels
  · rw [if_pos h5] at hr
    subst hr
    exact ⟨rfl, rfl⟩
  rw [if_neg h5] at hr
  by_cases h6 : env.Pa_IsFormatSupported
      { channelCount := d.channels, device := found.1, sampleFormat := paInt16,
        suggestedLatency := toDouble ((d.m_latency : ℚ) / 1000) } d.m_rate ≠ paFormatIsSupported
  · rw [if_pos h6] at hr
    subst hr
    exact ⟨rfl, rfl⟩
  exfalso
  rcases h with h | h | h | h | h
  · exact h1 h
  · omega
  · exact h4 h
  · exact h5 h
  · exact h6 h

/-- C6 (amended): for every enumeration of devices, configured output name and
required channel count, `SetupDevice` returns false and neither opens nor
starts a stream when (a) no enumerated device has a name equal to the
configured output name, or (b) the first device whose name matches has a
non-negative output-channel capacity smaller than the required channel count
(the capacity compared is that of the matched device, the cursor of the search
loop being its record), or (c) the format-support query for (signed 16-bit,
channel count, sample rate) on the matched device does not report support. -/
theorem SetupDevice_rejects (env : PaEnv) (d : CDeviceSound)
    (h : (∀ k : Nat, (k : Int) < env.Pa_GetDeviceCount →
            (env.Pa_GetDeviceInfo k).name ≠ d.m_output) ∨
         (∃ k : Nat, (k : Int) < env.Pa_GetDeviceCount ∧
            (env.Pa_GetDeviceInfo k).name = d.m_output ∧
            (∀ m, m < k → (env.Pa_GetDeviceInfo m).name ≠ d.m_output) ∧
            ((0 ≤ (env.Pa_GetDeviceInfo k).maxOutputChannels ∧
                (env.Pa_GetDeviceInfo k).maxOutputChannels < (d.channels : Int)) ∨
             env.Pa_IsFormatSupported
                { channelCount := d.channels, device := (k : Int), sampleFormat := paInt16,
                  suggestedLatency := toDouble ((d.m_latency : ℚ) / 1000) } d.m_rate
               ≠ paFormatIsSupported))) :
    (SetupDevice env d).ret = false ∧
    (∀ c ∈ (SetupDevice env d).calls, c.1.isOpenStream = false ∧ c.1 ≠ PaCall.startStream) ∧
    (∀ k : Nat, (k : Int) < env.Pa_GetDeviceCount →
      (env.Pa_GetDeviceInfo k).name = d.m_output →
      (∀ m, m < k → (env.Pa_GetDeviceInfo m).name ≠ d.m_output) →
      (searchLoop env d.m_output env.Pa_GetDeviceCount.toNat 0
        (env.Pa_GetDeviceInfo (env.Pa_GetDeviceCount.toNat - 1))).2
        = env.Pa_GetDeviceInfo k) := by
  have hcursor : ∀ k : Nat, (k : Int) < env.Pa_GetDeviceCount →
      (env.Pa_GetDeviceInfo k).name = d.m_output →
      (∀ m, m < k → (env.Pa_GetDeviceInfo m).name ≠ d.m_output) →
      searchLoop env d.m_output env.Pa_GetDeviceCount.toNat 0
        (env.Pa_GetDeviceInfo (env.Pa_GetDeviceCount.toNat - 1))
        = ((k : Int), env.Pa_GetDeviceInfo k) := by
    intro k hk hname hfirst
    exact searchLoop_first env d.m_output _ 0 _ k (Nat.zero_le _) (by omega) hname
      (fun m _ h2 => hfirst m h2)
  have hneg : (SetupDevice env d).ret = false ∧ (SetupDevice env d).calls = [(PaCall.init, d)] := by
    apply SetupDevice_not_negotiated
    rcases h with h | ⟨k, hk, hname, hfirst, h⟩
    · right; right; left
      exact searchLoop_none env d.m_output _ 0 _ (fun k _ h2 => h k (by omega))
    · rw [hcursor k hk hname hfirst]
      rcases h with ⟨h0, h1⟩ | h
      · right; right; right; left
        exact toSizeT_lt _ _ h0 h1
      · right; right; right; right
        exact h
  refine ⟨hneg.1, ?_, ?_⟩
  · intro c hc
    rw [hneg.2, List.mem_singleton] at hc
    rw [hc]
    exact ⟨rfl, by simp⟩
  · intro k hk hname hfirst
    rw [hcursor k hk hname hfirst]

/-- C6 at a device `snd` with one output channel when two are required:
`SetupDevice` returns false with no stream opened or started. -/
theorem SetupDevice_rejects_witness :
    ((monoEnv.Pa_GetDeviceInfo 0).name = freshDevice.m_output ∧
      0 ≤ (monoEnv.Pa_GetDeviceInfo 0).maxOutputChannels ∧
      (monoEnv.Pa_GetDeviceInfo 0).maxOutputChannels < (freshDevice.channels : Int)) ∧
    (SetupDevice monoEnv freshDevice).ret = false ∧
    (∀ c ∈ (SetupDevice monoEnv freshDevice).calls,
      c.1.isOpenStream = false ∧ c.1 ≠ PaCall.startStream) := by
  have h1 : (monoEnv.Pa_GetDeviceInfo 0).name = freshDevice.m_output := by decide
  have h2 : 0 ≤ (monoEnv.Pa_GetDeviceInfo 0).maxOutputChannels := by decide
  have h3 : (monoEnv.Pa_GetDeviceInfo 0).maxOutputChannels < (freshDevice.channels : Int) := by
    decide
  have h := SetupDevice_rejects monoEnv freshDevice
    (Or.inr ⟨0, by decide, h1, fun m hm => absurd hm (Nat.not_lt_zero m), Or.inl ⟨h2, h3⟩⟩)
  exact ⟨⟨h1, h2, h3⟩, h.1, h.2.1⟩

/-- C6 (b), as stated for every integer capacity, fails at the capacity `-1`
with one channel required: the matched device's capacity is smaller than the
channel count, yet `SetupDevice` opens and starts the stream and returns
true (the comparison is made in `size_t`). -/
theorem SetupDevice_negative_capacity :
    (negativeCapacityEnv.Pa_GetDeviceInfo 0).name = freshMonoDevice.m_output ∧
    (negativeCapacityEnv.Pa_GetDeviceInfo 0).maxOutputChannels
      < (freshMonoDevice.channels : Int) ∧
    (SetupDevice negativeCapacityEnv freshMonoDevice).ret = true ∧
    (SetupDevice negativeCapacityEnv freshMonoDevice).calls.map Prod.fst =
      [PaCall.init,
       PaCall.openStream
        { device := 0, channelCount := 1, sampleFormat := 8, suggestedLatency := toDouble (10 / 1000) }
        48000 64,
       PaCall.startStream] := by
  refine ⟨by decide, by decide, ?_, ?_⟩
  · decide
  · norm_num [SetupDevice, negativeCapacityEnv, workingEnv, freshMonoDevice, freshDevice,
      construct, searchLoop, toSizeT, paNoError, paFormatIsSupported, paInt16]

/-! ## Lifecycle flags -/

/-- The flags after `SetupDevice`, stage by stage. -/
theorem SetupDevice_flags (env : PaEnv) (d : CDeviceSound) :
    ((SetupDevice env d).dev.m_initialized = true ↔
      (env.Init = paNoError ∨ d.m_initialized = true)) ∧
    ((SetupDevice env d).dev.m_opened = true ↔
      (((∃ c ∈ (SetupDevice env d).calls, c.1.isOpenStream = true) ∧
        env.Pa_OpenStream = paNoError) ∨ d.m_opened = true)) ∧
    ((SetupDevice env d).dev.m_started = true ↔
      (((∃ c ∈ (SetupDevice env d).calls, c.1 = PaCall.startStream) ∧
        env.Pa_StartStream = paNoError) ∨ d.m_started = true)) ∧
    ((SetupDevice env d).ret = true →
      (SetupDevice env d).dev.m_started = true ∧ (SetupDevice env d).dev.m_opened = true ∧
      (SetupDevice env d).dev.m_initialized = true) ∧
    ((∃ c ∈ (SetupDevice env d).calls, c.1.isOpenStream = true) → env.Init = paNoError) ∧
    ((∃ c ∈ (SetupDevice env d).calls, c.1 = PaCall.startStream) →
      env.Pa_OpenStream = paNoError ∧
      ∃ c ∈ (SetupDevice env d).calls, c.1.isOpenStream = true) ∧
    ((SetupDevice env d).ret = false →
      ¬ ((∃ c ∈ (SetupDevice env d).calls, c.1 = PaCall.startStream) ∧
        env.Pa_StartStream = paNoError)) := by
  generalize hr : SetupDevice env d = r
  unfold SetupDevice at hr
  simp only [] at hr
  generalize searchLoop env d.m_output env.Pa_GetDeviceCount.toNat 0
    (env.Pa_GetDeviceInfo (env.Pa_GetDeviceCount.toNat - 1)) = found at hr
  by_cases h1 : env.Init = paNoError
  swap
  · rw [if_pos h1] at hr
    subst hr
    simp [h1, PaCall.isOpenStream]
  rw [if_neg (not_not.mpr h1)] at hr
  by_cases h2 : env.Pa_GetDeviceCount < 0
  · rw [if_pos h2] at hr
    subst hr
    simp [h1, PaCall.isOpenStream]
  rw [if_neg h2] at hr
  by_cases h3 : env.Pa_GetDeviceCount = 0
  · rw [if_pos h3] at hr
    subst hr
    simp [h1, PaCall.isOpenStream]
  rw [if_neg h3] at hr
  by_cases h4 : found.1 = -1
  · rw [if_pos h4] at hr
    subst hr
    simp [h1, PaCall.isOpenStream]
  rw [if_neg h4] at hr
  by_cases h5 : toSizeT found.2.maxOutputChannels < d.channels
  · rw [if_pos h5] at hr
    subst hr
    simp [h1, PaCall.isOpenStream]
  rw [if_neg h5] at hr
  by_cases h6 : env.Pa_IsFormatSupported
      { channelCount := d.channels, device := found.1, sampleFormat := paInt16,
        suggestedLatency := toDouble ((d.m_latency : ℚ) / 1000) } d.m_rate = paFormatIsSupported
  swap
  · rw [if_pos h6] at hr
    subst hr
    simp [h1, PaCall.isOpenStream]
  rw [if_neg (not_not.mpr h6)] at hr
  by_cases h7 : env.Pa_OpenStream = paNoError
  swap
  · rw [if_pos h7] at hr
    subst hr
    simp [h1, h7, PaCall.isOpenStream]
  rw [if_neg (not_not.mpr h7)] at hr
  by_cases h8 : env.Pa_StartStream = paNoError
  swap
  · rw [if_pos h8] at hr
    subst hr
    simp [h1, h7, h8, PaCall.isOpenStream]
  rw [if_neg (not_not.mpr h8)] at hr
  subst hr
  simp [h1, h7, h8, PaCall.isOpenStream]

/-- The order of the lifecycle flags. -/
theorem SetupDevice_keeps_order (env : PaEnv) (d : CDeviceSound)
    (h1 : d.m_started = true → d.m_opened = true)
    (h2 : d.m_opened = true → d.m_initialized = true) :
    ((SetupDevice env d).dev.m_started = true → (SetupDevice env d).dev.m_opened = true) ∧
    ((SetupDevice env d).dev.m_opened = true → (SetupDevice env d).dev.m_initialized = true) := by
  obtain ⟨f1, f2, f3, _, f5, f6, _⟩ := SetupDevice_flags env d
  constructor
  · intro hs
    rcases f3.mp hs with ⟨hc, _⟩ | hd
    · exact f2.mpr (Or.inl ⟨(f6 hc).2, (f6 hc).1⟩)
    · exact f2.mpr (Or.inr (h1 hd))
  · intro ho
    rcases f2.mp ho with ⟨hc, _⟩ | hd
    · exact f1.mpr (Or.inl (f5 hc))
    · exact f1.mpr (Or.inr (h2 hd))

theorem CloseDevice_flags (env : PaEnv) (d : CDeviceSound) :
    (CloseDevice env d).dev.m_initialized = false ∧
    (CloseDevice env d).dev.m_opened = false ∧
    (CloseDevice env d).dev.m_started = false := by
  unfold CloseDevice closeInitialized closeOpened closeStarted
  cases hs : d.m_started <;> cases ho : d.m_opened <;> cases hi : d.m_initialized <;>
    simp [hs, ho, hi]

theorem lifecycleRun_keeps_order : ∀ (ops : List LifecycleCall) (d : CDeviceSound),
    (d.m_started = true → d.m_opened = true) →
    (d.m_opened = true → d.m_initialized = true) →
    ((lifecycleRun d ops).m_started = true → (lifecycleRun d ops).m_opened = true) ∧
    ((lifecycleRun d ops).m_opened = true → (lifecycleRun d ops).m_initialized = true) := by
  intro ops
  induction ops with
  | nil => intro d h1 h2; exact ⟨h1, h2⟩
  | cons op ops ih =>
    intro d h1 h2
    have hstep : lifecycleRun d (op :: ops) = lifecycleRun (lifecycleStep d op) ops := rfl
    rw [hstep]
    cases op with
    | setup env =>
      obtain ⟨k1, k2⟩ := SetupDevice_keeps_order env d h1 h2
      exact ih _ k1 k2
    | close env =>
      obtain ⟨c1, c2, c3⟩ := CloseDevice_flags env d
      apply ih
      · intro h
        have : (CloseDevice env d).dev.m_started = true := h
        rw [c3] at this
        exact absurd this (by decide)
      · intro h
        have : (CloseDevice env d).dev.m_opened = true := h
        rw [c2] at this
        exact absurd this (by decide)

/-- C9: in every state reached from the constructor state by any sequence of
`SetupDevice` and `CloseDevice` calls, whatever the audio subsystem answers,
`started` implies `opened` and `opened` implies `initialized`. After one
`SetupDevice` run from the constructor state, `initialized` holds iff the gate
init succeeded, `opened` iff the stream open call was reached and succeeded,
`started` iff the stream start call was reached and succeeded, and
`SetupDevice` returns true iff `started` holds. -/
theorem lifecycle_flag_invariant (d : CDeviceSound) (ops : List LifecycleCall) (env : PaEnv) :
    ((lifecycleRun (construct d) ops).m_started = true →
      (lifecycleRun (construct d) ops).m_opened = true) ∧
    ((lifecycleRun (construct d) ops).m_opened = true →
      (lifecycleRun (construct d) ops).m_initialized = true) ∧
    ((SetupDevice env (construct d)).dev.m_initialized = true ↔ env.Init = paNoError) ∧
    ((SetupDevice env (construct d)).dev.m_opened = true ↔
      ((∃ c ∈ (SetupDevice env (construct d)).calls, c.1.isOpenStream = true) ∧
        env.Pa_OpenStream = paNoError)) ∧
    ((SetupDevice env (construct d)).dev.m_started = true ↔
      ((∃ c ∈ (SetupDevice env (construct d)).calls, c.1 = PaCall.startStream) ∧
        env.Pa_StartStream = paNoError)) ∧
    ((SetupDevice env (construct d)).ret = true ↔
      (SetupDevice env (construct d)).dev.m_started = true) := by
  have hi : (construct d).m_initialized = false := rfl
  have ho : (construct d).m_opened = false := rfl
  have hs : (construct d).m_started = false := rfl
  obtain ⟨r1, r2⟩ := lifecycleRun_keeps_order ops (construct d)
    (by rw [hs]; intro h; exact absurd h (by decide))
    (by rw [ho]; intro h; exact absurd h (by decide))
  obtain ⟨f1, f2, f3, f4, _, _, f7⟩ := SetupDevice_flags env (construct d)
  rw [hi] at f1
  rw [ho] at f2
  rw [hs] at f3
  refine ⟨r1, r2, ?_, ?_, ?_, ?_⟩
  · rw [f1]; simp
  · rw [f2]; simp
  · rw [f3]; simp
  · constructor
    · intro h
      exact (f4 h).1
    · intro h
      cases hr : (SetupDevice env (construct d)).ret with
      | true => rfl
      | false => exact absurd ((f3.mp h).resolve_right (by decide)) (f7 hr)

/-! ## Carrier state at stream start -/

/-- C10 on the code: on a freshly constructed device with every PortAudio
call succeeding, `SetupDevice` returns true and issues `Pa_StartStream` while
the carrier fields still hold their values from before the call (here
`1234`, `-5`, `7`, for which `0 ≤ pwmCount < pwmPeriod` fails); the values
`32767`, `512` and `0` are in place only in the state `SetupDevice` returns. -/
theorem SetupDevice_starts_before_carrier :
    (SetupDevice workingEnv freshDevice).ret = true ∧
    (SetupDevice workingEnv freshDevice).calls.map
        (fun c => (c.1, c.2.m_pwmphase, c.2.m_pwmperiod, c.2.m_pwmcount)) =
      [(PaCall.init, 1234, -5, 7),
       (PaCall.openStream
          { device := 0, channelCount := 2, sampleFormat := 8, suggestedLatency := toDouble (10 / 1000) }
          48000 64, 1234, -5, 7),
       (PaCall.startStream, 1234, -5, 7)] ∧
    (∀ c ∈ (SetupDevice workingEnv freshDevice).calls,
      ¬ (0 ≤ c.2.m_pwmcount ∧ c.2.m_pwmcount < c.2.m_pwmperiod)) ∧
    (SetupDevice workingEnv freshDevice).dev.m_pwmphase = 32767 ∧
    (SetupDevice workingEnv freshDevice).dev.m_pwmperiod = 512 ∧
    (SetupDevice workingEnv freshDevice).dev.m_pwmcount = 0 := by
  norm_num [SetupDevice, workingEnv, freshDevice, construct, searchLoop, toSizeT, paNoError,
    paFormatIsSupported, paInt16, toDouble_512, Round, resize]

end Boblight
